import Mathlib

/-!
Verification development for the calibre-updatr batch metadata updater.

The Rust sources (`runner.rs`, `state.rs`, `metadata.rs`, `calibre.rs`,
`app.rs`) are shallowly embedded below: pure functions become Lean
functions, external subprocess invocations become oracle parameters,
stateful code threads its state explicitly, and the per-item pipeline
records its persistence and subprocess events in a trace.  Machine
integers (i32/i64) are modelled as `Int`; overflow is not reachable for
the quantities involved (scores over a handful of configured weights,
failure counters).
-/

set_option maxRecDepth 1000000

namespace CalibreUpdatr

/-! ## String helpers

`containsSub needle hay` models Rust `str::contains` (substring test);
`i64_to_string` models Rust `i64::to_string` (decimal rendering). -/

/-- Substring occurrence test on character lists. -/
def listContainsSub (needle : List Char) : List Char → Bool
  | [] => needle.isEmpty
  | c :: rest => needle.isPrefixOf (c :: rest) || listContainsSub needle rest

/-- Model of Rust `str::contains`: does `hay` contain `needle` as a substring? -/
def containsSub (needle hay : String) : Bool :=
  listContainsSub needle.data hay.data

theorem listContainsSub_append_left {needle l : List Char} (t : List Char)
    (h : listContainsSub needle l = true) :
    listContainsSub needle (l ++ t) = true := by
  induction l with
  | nil =>
    simp [listContainsSub, List.isEmpty_iff] at h
    subst h
    cases t with
    | nil => simp [listContainsSub]
    | cons c cs => simp [listContainsSub, List.isPrefixOf]
  | cons c cs ih =>
    simp only [listContainsSub, Bool.or_eq_true] at h ⊢
    rcases h with h | h
    · left
      exact List.isPrefixOf_iff_prefix.mpr ((List.isPrefixOf_iff_prefix.mp h).trans
        (List.prefix_append (c :: cs) t))
    · right
      exact ih h

theorem containsSub_append_left {needle a : String} (b : String)
    (h : containsSub needle a = true) :
    containsSub needle (a ++ b) = true := by
  simpa [containsSub] using listContainsSub_append_left b.data h

/-! ### Executable string primitives

The corresponding Rust `str` operations are modelled on character lists
(ASCII-faithful, which covers every string the program compares): trim,
lowercasing, prefix test, single-character replace and split, and the
lexicographic order used to sort map keys.  Lean core's byte-position
based `String` primitives are avoided so that every definition evaluates
by kernel reduction. -/

/-- Rust `str::is_empty`. -/
def strIsEmpty (s : String) : Bool := s.data.isEmpty

/-- Rust `str::trim` (ASCII whitespace). -/
def strTrim (s : String) : String :=
  ⟨((s.data.dropWhile Char.isWhitespace).reverse.dropWhile Char.isWhitespace).reverse⟩

/-- ASCII lowercasing of one character (Rust `char::to_lowercase` on
the ASCII range). -/
def charToLower (c : Char) : Char :=
  if 65 ≤ c.toNat && c.toNat ≤ 90 then Char.ofNat (c.toNat + 32) else c

/-- Rust `str::to_lowercase` (ASCII range). -/
def strToLower (s : String) : String := ⟨s.data.map charToLower⟩

/-- Rust `str::starts_with`. -/
def strStartsWith (s pre : String) : Bool := pre.data.isPrefixOf s.data

/-- Rust `str::replace` with single-character pattern and replacement. -/
def strReplaceChar (a b : Char) (s : String) : String :=
  ⟨s.data.map (fun c => if c = a then b else c)⟩

/-- Split a character list on a separator character (Rust `str::split`). -/
def splitOnChar (c : Char) : List Char → List (List Char)
  | [] => [[]]
  | x :: xs =>
    match splitOnChar c xs with
    | [] => if x = c then [[], []] else [[x]]
    | h :: t => if x = c then [] :: h :: t else (x :: h) :: t

/-- Rust `str::split(',')` collected to a list. -/
def strSplitComma (s : String) : List String :=
  (splitOnChar ',' s.data).map (fun l => ⟨l⟩)

/-- Separator-joining of string items (Rust `join` / `serde_json`
compact comma form). -/
def joinSep (sep : String) : List String → String
  | [] => ""
  | [s] => s
  | s :: rest => s ++ sep ++ joinSep sep rest

/-- Comma-joining of serialized JSON items (`serde_json` compact form). -/
def joinComma (l : List String) : String := joinSep "," l

/-- Lexicographic order on character lists by code point (agrees with
Rust `String` ordering, which is byte-lexicographic, since UTF-8
preserves code-point order). -/
def charListLe : List Char → List Char → Bool
  | [], _ => true
  | _ :: _, [] => false
  | a :: as, b :: bs => if a < b then true else if b < a then false else charListLe as bs

/-- Lexicographic order on strings (Rust `String` `Ord`). -/
def strLeb (a b : String) : Bool := charListLe a.data b.data

/-- `strLeb` as a relation. -/
def strLe (a b : String) : Prop := strLeb a b = true

theorem charListLe_total : ∀ as bs, charListLe as bs = true ∨ charListLe bs as = true := by
  intro as
  induction as with
  | nil => intro bs; left; rfl
  | cons a as ih =>
    intro bs
    cases bs with
    | nil => right; rfl
    | cons b bs =>
      rcases lt_trichotomy a b with h | h | h
      · left
        simp [charListLe, h]
      · subst h
        rcases ih bs with h2 | h2
        · left
          simpa [charListLe, lt_irrefl] using h2
        · right
          simpa [charListLe, lt_irrefl] using h2
      · right
        simp [charListLe, h]

theorem charListLe_trans : ∀ as bs cs, charListLe as bs = true → charListLe bs cs = true →
    charListLe as cs = true := by
  intro as
  induction as with
  | nil => intro bs cs _ _; rfl
  | cons a as ih =>
    intro bs cs h1 h2
    cases bs with
    | nil => simp [charListLe] at h1
    | cons b bs =>
      cases cs with
      | nil => simp [charListLe] at h2
      | cons c cs =>
        rw [charListLe] at h1 h2 ⊢
        by_cases hab : a < b
        · by_cases hbc : b < c
          · simp [lt_trans hab hbc]
          · by_cases hcb : c < b
            · simp [hbc, hcb] at h2
            · have : b = c := le_antisymm (not_lt.mp hcb) (not_lt.mp hbc)
              subst this
              simp [hab]
        · by_cases hba : b < a
          · simp [hab, hba] at h1
          · have : a = b := le_antisymm (not_lt.mp hba) (not_lt.mp hab)
            subst this
            simp only [lt_irrefl, if_false] at h1
            by_cases hac : a < c
            · simp [hac]
            · by_cases hca : c < a
              · simp [hac, hca] at h2
              · simp only [hac, hca, if_false] at h2 ⊢
                exact ih bs cs h1 h2

theorem charListLe_antisymm : ∀ as bs, charListLe as bs = true → charListLe bs as = true →
    as = bs := by
  intro as
  induction as with
  | nil =>
    intro bs _ h2
    cases bs with
    | nil => rfl
    | cons b bs => simp [charListLe] at h2
  | cons a as ih =>
    intro bs h1 h2
    cases bs with
    | nil => simp [charListLe] at h1
    | cons b bs =>
      rw [charListLe] at h1 h2
      by_cases hab : a < b
      · simp [hab, asymm hab] at h2
      · by_cases hba : b < a
        · simp [hab, hba] at h1
        · have : a = b := le_antisymm (not_lt.mp hba) (not_lt.mp hab)
          subst this
          simp only [lt_irrefl, if_false] at h1 h2
          rw [ih bs h1 h2]

instance : IsAntisymm String strLe :=
  ⟨fun a b h1 h2 => by
    obtain ⟨as⟩ := a
    obtain ⟨bs⟩ := b
    exact congrArg String.mk (charListLe_antisymm as bs h1 h2)⟩

instance : IsTotal String strLe :=
  ⟨fun a b => charListLe_total a.data b.data⟩

instance : IsTrans String strLe :=
  ⟨fun a b c h1 h2 => charListLe_trans a.data b.data c.data h1 h2⟩

/-- Little-endian decimal digits, structurally recursive on a fuel bound
(the fuel is always sufficient when called through `natDigitsRev`). -/
def natDigitsRevGo : Nat → Nat → List Nat
  | 0, n => [n % 10]
  | fuel + 1, n => if n < 10 then [n] else n % 10 :: natDigitsRevGo fuel (n / 10)

/-- Little-endian decimal digits of a natural number (always nonempty). -/
def natDigitsRev (n : Nat) : List Nat :=
  natDigitsRevGo n n

/-- Reassemble a natural number from little-endian decimal digits. -/
def undigitsRev : List Nat → Nat
  | [] => 0
  | d :: ds => d + 10 * undigitsRev ds

theorem undigitsRev_natDigitsRevGo (fuel n : Nat) (hf : n ≤ fuel) :
    undigitsRev (natDigitsRevGo fuel n) = n := by
  induction fuel generalizing n with
  | zero => simp [natDigitsRevGo, undigitsRev]; omega
  | succ fuel ih =>
    rw [natDigitsRevGo]
    split
    · simp [undigitsRev]
    · rw [undigitsRev, ih (n / 10) (by omega)]
      omega

theorem undigitsRev_natDigitsRev (n : Nat) : undigitsRev (natDigitsRev n) = n :=
  undigitsRev_natDigitsRevGo n n le_rfl

theorem natDigitsRev_injective {a b : Nat} (h : natDigitsRev a = natDigitsRev b) : a = b := by
  have := undigitsRev_natDigitsRev a
  rw [h, undigitsRev_natDigitsRev b] at this
  omega

theorem natDigitsRev_ne_nil (n : Nat) : natDigitsRev n ≠ [] := by
  rw [natDigitsRev]
  cases n with
  | zero => simp [natDigitsRevGo]
  | succ m => rw [natDigitsRevGo]; split <;> simp

theorem natDigitsRevGo_lt_ten (fuel n : Nat) : ∀ d ∈ natDigitsRevGo fuel n, d < 10 := by
  induction fuel generalizing n with
  | zero =>
    intro d hd
    simp [natDigitsRevGo] at hd
    omega
  | succ fuel ih =>
    intro d hd
    rw [natDigitsRevGo] at hd
    split at hd
    · simp at hd
      omega
    · simp at hd
      rcases hd with h | h
      · omega
      · exact ih (n / 10) d h

theorem natDigitsRev_lt_ten (n : Nat) : ∀ d ∈ natDigitsRev n, d < 10 :=
  natDigitsRevGo_lt_ten n n

/-- Decimal digit to character, as in standard decimal rendering. -/
def digit10 (d : Nat) : Char :=
  Char.ofNat (48 + d)

theorem digit10_inj_lt {a b : Nat} (ha : a < 10) (hb : b < 10)
    (h : digit10 a = digit10 b) : a = b := by
  interval_cases a <;> interval_cases b <;> simp_all [digit10]

theorem digit10_ne_neg {a : Nat} (ha : a < 10) : digit10 a ≠ '-' := by
  interval_cases a <;> simp [digit10]

theorem map_digit10_inj {xs ys : List Nat} (hx : ∀ d ∈ xs, d < 10)
    (hy : ∀ d ∈ ys, d < 10) (h : xs.map digit10 = ys.map digit10) : xs = ys := by
  induction xs generalizing ys with
  | nil => cases ys <;> simp_all
  | cons a as ih =>
    cases ys with
    | nil => simp_all
    | cons b bs =>
      simp only [List.map_cons, List.cons.injEq] at h
      have hab : a = b := digit10_inj_lt (hx a (by simp)) (hy b (by simp)) h.1
      have : as = bs := ih (fun d hd => hx d (by simp [hd]))
        (fun d hd => hy d (by simp [hd])) h.2
      simp [hab, this]

/-- Model of Rust `u64`/`Nat` decimal rendering. -/
def natToDecimal (n : Nat) : List Char :=
  ((natDigitsRev n).reverse).map digit10

theorem natToDecimal_injective {a b : Nat} (h : natToDecimal a = natToDecimal b) :
    a = b := by
  have := map_digit10_inj
    (fun d hd => natDigitsRev_lt_ten a d (List.mem_reverse.mp hd))
    (fun d hd => natDigitsRev_lt_ten b d (List.mem_reverse.mp hd)) h
  exact natDigitsRev_injective (List.reverse_injective this)

theorem natToDecimal_ne_nil (n : Nat) : natToDecimal n ≠ [] := by
  simp [natToDecimal, natDigitsRev_ne_nil]

theorem natToDecimal_head_ne_neg (n : Nat) :
    ∀ c ∈ natToDecimal n, c ≠ '-' := by
  intro c hc
  simp only [natToDecimal, List.mem_map, List.mem_reverse] at hc
  obtain ⟨d, hd, rfl⟩ := hc
  exact digit10_ne_neg (natDigitsRev_lt_ten n d hd)

/-- Model of Rust `i64::to_string`: decimal rendering with a leading
minus sign for negative values. -/
def i64_to_string (i : Int) : String :=
  if i < 0 then ⟨'-' :: natToDecimal i.natAbs⟩
  else ⟨natToDecimal i.toNat⟩

theorem i64_to_string_injective {a b : Int} (h : i64_to_string a = i64_to_string b) :
    a = b := by
  unfold i64_to_string at h
  split at h <;> split at h <;> rename_i ha hb
  · have : natToDecimal a.natAbs = natToDecimal b.natAbs := by
      have := congrArg String.data h
      simpa using this
    have := natToDecimal_injective this
    omega
  · exfalso
    have := congrArg String.data h
    simp only [String.data] at this
    rcases he : natToDecimal b.toNat with _ | ⟨c, cs⟩
    · exact natToDecimal_ne_nil _ he
    · rw [he] at this
      have : '-' = c := by simpa using congrArg (fun l => l.head?) this
      exact natToDecimal_head_ne_neg b.toNat c (by simp [he]) this.symm
  · exfalso
    have := congrArg String.data h.symm
    simp only [String.data] at this
    rcases he : natToDecimal a.toNat with _ | ⟨c, cs⟩
    · exact natToDecimal_ne_nil _ he
    · rw [he] at this
      have : '-' = c := by simpa using congrArg (fun l => l.head?) this
      exact natToDecimal_head_ne_neg a.toNat c (by simp [he]) this.symm
  · have : natToDecimal a.toNat = natToDecimal b.toNat := by
      have := congrArg String.data h
      simpa using this
    have := natToDecimal_injective this
    omega

/-! ## JSON values (`serde_json::Value`)

Objects are association lists; real `serde_json` maps have unique keys,
which appears as a `Nodup` hypothesis where proofs need it.  JSON numbers
are modelled as integers (the fields the program touches are ids and
strings). -/

inductive Json where
  | null : Json
  | bool (b : Bool) : Json
  | num (n : Int) : Json
  | str (s : String) : Json
  | arr (xs : List Json) : Json
  | obj (kvs : List (String × Json)) : Json

/-- Lowercase hexadecimal digit. -/
def hexDigit (n : Nat) : Char :=
  if n < 10 then digit10 n else Char.ofNat (87 + n)

/-- JSON string escaping as performed by `serde_json` (compact form). -/
def escapeChar (c : Char) : List Char :=
  if c = '"' then ['\\', '"']
  else if c = '\\' then ['\\', '\\']
  else if c.toNat = 8 then ['\\', 'b']
  else if c.toNat = 12 then ['\\', 'f']
  else if c = '\n' then ['\\', 'n']
  else if c = '\r' then ['\\', 'r']
  else if c = '\t' then ['\\', 't']
  else if c.toNat < 32 then
    ['\\', 'u', '0', '0', hexDigit (c.toNat / 16), hexDigit (c.toNat % 16)]
  else [c]

/-- Serialize a string literal with quotes and escapes. -/
def serializeString (s : String) : String :=
  ⟨'"' :: s.data.foldr (fun c acc => escapeChar c ++ acc) ['"']⟩

mutual

/-- Compact JSON serialization, as `serde_json::to_string`. -/
def serializeJson : Json → String
  | .null => "null"
  | .bool b => if b then "true" else "false"
  | .num n => i64_to_string n
  | .str s => serializeString s
  | .arr xs => "[" ++ joinComma (serializeJsonList xs) ++ "]"
  | .obj kvs => "\x7b" ++ joinComma (serializeJsonPairs kvs) ++ "\x7d"

def serializeJsonList : List Json → List String
  | [] => []
  | x :: xs => serializeJson x :: serializeJsonList xs

def serializeJsonPairs : List (String × Json) → List String
  | [] => []
  | (k, v) :: ps => (serializeString k ++ ":" ++ serializeJson v) :: serializeJsonPairs ps

end

/-- Ordering of object entries by key, used to canonicalize objects. -/
def keyLe {α : Type} (p q : String × α) : Prop := strLe p.1 q.1

instance {α : Type} : DecidableRel (keyLe (α := α)) :=
  fun p q => inferInstanceAs (Decidable (strLeb p.1 q.1 = true))

instance {α : Type} : IsTotal (String × α) keyLe :=
  ⟨fun p q => IsTotal.total (r := strLe) p.1 q.1⟩

instance {α : Type} : IsTrans (String × α) keyLe :=
  ⟨fun _ _ _ h1 h2 => IsTrans.trans (r := strLe) _ _ _ h1 h2⟩

mutual

/-- `sort_value` from `metadata.rs`: recursively sort object keys;
array element order is preserved. -/
def sort_value : Json → Json
  | .null => .null
  | .bool b => .bool b
  | .num n => .num n
  | .str s => .str s
  | .arr xs => .arr (sortValueList xs)
  | .obj kvs => .obj (List.insertionSort keyLe (sortValuePairs kvs))

def sortValueList : List Json → List Json
  | [] => []
  | x :: xs => sort_value x :: sortValueList xs

def sortValuePairs : List (String × Json) → List (String × Json)
  | [] => []
  | (k, v) :: ps => (k, sort_value v) :: sortValuePairs ps

end

/-- `stable_json_string` from `metadata.rs`: serialize with keys sorted
recursively. -/
def stable_json_string (v : Json) : String :=
  serializeJson (sort_value v)

/-! ## SHA-256 (the `sha2` crate's `Sha256`)

Implemented over `Nat` with explicit reduction modulo `2^32`. -/

def add32 (a b : Nat) : Nat := (a + b) % 4294967296

def rotr32 (n x : Nat) : Nat := ((x >>> n) ||| (x <<< (32 - n))) % 4294967296

def bsig0 (x : Nat) : Nat := rotr32 2 x ^^^ rotr32 13 x ^^^ rotr32 22 x

def bsig1 (x : Nat) : Nat := rotr32 6 x ^^^ rotr32 11 x ^^^ rotr32 25 x

def ssig0 (x : Nat) : Nat := rotr32 7 x ^^^ rotr32 18 x ^^^ (x >>> 3)

def ssig1 (x : Nat) : Nat := rotr32 17 x ^^^ rotr32 19 x ^^^ (x >>> 10)

def chf (x y z : Nat) : Nat := (x &&& y) ^^^ ((x ^^^ 4294967295) &&& z)

def maj (x y z : Nat) : Nat := (x &&& y) ^^^ (x &&& z) ^^^ (y &&& z)

def shaK : List Nat :=
  [1116352408, 1899447441, 3049323471, 3921009573, 961987163,
   1508970993, 2453635748, 2870763221, 3624381080, 310598401,
   607225278, 1426881987, 1925078388, 2162078206, 2614888103,
   3248222580, 3835390401, 4022224774, 264347078, 604807628,
   770255983, 1249150122, 1555081692, 1996064986, 2554220882,
   2821834349, 2952996808, 3210313671, 3336571891, 3584528711,
   113926993, 338241895, 666307205, 773529912, 1294757372,
   1396182291, 1695183700, 1986661051, 2177026350, 2456956037,
   2730485921, 2820302411, 3259730800, 3345764771, 3516065817,
   3600352804, 4094571909, 275423344, 430227734, 506948616,
   659060556, 883997877, 958139571, 1322822218, 1537002063,
   1747873779, 1955562222, 2024104815, 2227730452, 2361852424,
   2428436474, 2756734187, 3204031479, 3329325298]

def shaH0 : List Nat :=
  [1779033703, 3144134277, 1013904242, 2773480762,
   1359893119, 2600822924, 528734635, 1541459225]

/-- Big-endian 8-byte encoding of a 64-bit length. -/
def be64 (n : Nat) : List Nat :=
  [(n >>> 56) % 256, (n >>> 48) % 256, (n >>> 40) % 256, (n >>> 32) % 256,
   (n >>> 24) % 256, (n >>> 16) % 256, (n >>> 8) % 256, n % 256]

/-- SHA-256 message padding to a multiple of 64 bytes. -/
def shaPad (msg : List Nat) : List Nat :=
  let len := msg.length
  let zeros := (64 - ((len + 9) % 64)) % 64
  msg ++ [0x80] ++ List.replicate zeros 0 ++ be64 (8 * len)

/-- Split a byte list into 64-byte blocks (fuel-based, structurally
recursive; the fuel is always sufficient when called via `chunks64`). -/
def chunks64Go : Nat → List Nat → List (List Nat)
  | 0, _ => []
  | fuel + 1, l => if l.isEmpty then [] else l.take 64 :: chunks64Go fuel (l.drop 64)

/-- Split a byte list into 64-byte blocks. -/
def chunks64 (l : List Nat) : List (List Nat) :=
  chunks64Go l.length l

/-- Combine bytes into 32-bit big-endian words. -/
def words16 : List Nat → List Nat
  | b0 :: b1 :: b2 :: b3 :: rest =>
    ((b0 <<< 24) ||| (b1 <<< 16) ||| (b2 <<< 8) ||| b3) :: words16 rest
  | _ => []

/-- Extend the 16 message words to the 64-entry message schedule. -/
def schedule (w : List Nat) : List Nat :=
  (List.range 48).foldl
    (fun acc _ =>
      let n := acc.length
      acc ++ [add32 (add32 (ssig1 (acc.getD (n - 2) 0)) (acc.getD (n - 7) 0))
        (add32 (ssig0 (acc.getD (n - 15) 0)) (acc.getD (n - 16) 0))])
    w

structure Hash8 where
  a : Nat
  b : Nat
  c : Nat
  d : Nat
  e : Nat
  f : Nat
  g : Nat
  h : Nat

def roundStep (st : Hash8) (kw : Nat × Nat) : Hash8 :=
  let t1 := add32 (add32 (add32 st.h (bsig1 st.e)) (add32 (chf st.e st.f st.g) kw.1)) kw.2
  let t2 := add32 (bsig0 st.a) (maj st.a st.b st.c)
  ⟨add32 t1 t2, st.a, st.b, st.c, add32 st.d t1, st.e, st.f, st.g⟩

def compressBlock (hs : List Nat) (block : List Nat) : List Nat :=
  let w := schedule (words16 block)
  let st0 : Hash8 := ⟨hs.getD 0 0, hs.getD 1 0, hs.getD 2 0, hs.getD 3 0,
    hs.getD 4 0, hs.getD 5 0, hs.getD 6 0, hs.getD 7 0⟩
  let st := (shaK.zip w).foldl roundStep st0
  [add32 (hs.getD 0 0) st.a, add32 (hs.getD 1 0) st.b,
   add32 (hs.getD 2 0) st.c, add32 (hs.getD 3 0) st.d,
   add32 (hs.getD 4 0) st.e, add32 (hs.getD 5 0) st.f,
   add32 (hs.getD 6 0) st.g, add32 (hs.getD 7 0) st.h]

/-- SHA-256 over a byte list, producing the 8 hash words. -/
def sha256Words (msg : List Nat) : List Nat :=
  (chunks64 (shaPad msg)).foldl compressBlock shaH0

/-- Hex rendering of one byte, two lowercase digits. -/
def byteHex (b : Nat) : List Char := [hexDigit (b / 16), hexDigit (b % 16)]

/-- Big-endian bytes of one 32-bit word. -/
def wordBytes (w : Nat) : List Nat :=
  [(w >>> 24) % 256, (w >>> 16) % 256, (w >>> 8) % 256, w % 256]

/-- UTF-8 encoding of one character. -/
def utf8Encode (c : Char) : List Nat :=
  let n := c.toNat
  if n < 0x80 then [n]
  else if n < 0x800 then [0xC0 ||| (n >>> 6), 0x80 ||| (n &&& 0x3F)]
  else if n < 0x10000 then
    [0xE0 ||| (n >>> 12), 0x80 ||| ((n >>> 6) &&& 0x3F), 0x80 ||| (n &&& 0x3F)]
  else
    [0xF0 ||| (n >>> 18), 0x80 ||| ((n >>> 12) &&& 0x3F),
     0x80 ||| ((n >>> 6) &&& 0x3F), 0x80 ||| (n &&& 0x3F)]

/-- UTF-8 bytes of a string. -/
def strBytes (s : String) : List Nat :=
  s.data.foldr (fun c acc => utf8Encode c ++ acc) []

/-- `sha256_text` from `metadata.rs`: lowercase hex SHA-256 digest of the
UTF-8 bytes of a string. -/
def sha256_text (s : String) : String :=
  ⟨((sha256Words (strBytes s)).foldr (fun w acc => wordBytes w ++ acc) []).foldr
    (fun b acc => byteHex b ++ acc) []⟩

/-! ## Metadata snapshots (`metadata.rs`) -/

/-- `Snapshot` from `metadata.rs`.  The `identifiers` HashMap is modelled
as an association list with unique keys (maintained by `upsertStr`). -/
structure Snapshot where
  title : String
  authors : List String
  publisher : String
  pubdate : String
  languages : List String
  isbn : String
  identifiers : List (String × String)
  tags : List String
  comments_present : Bool
  cover_present : Bool
deriving DecidableEq

/-- serde serialization of a `Snapshot` to a JSON value (fields in
declaration order; the identifier map becomes an object). -/
def snapshotToJson (s : Snapshot) : Json :=
  .obj [("title", .str s.title),
        ("authors", .arr (s.authors.map .str)),
        ("publisher", .str s.publisher),
        ("pubdate", .str s.pubdate),
        ("languages", .arr (s.languages.map .str)),
        ("isbn", .str s.isbn),
        ("identifiers", .obj (s.identifiers.map (fun p => (p.1, .str p.2)))),
        ("tags", .arr (s.tags.map .str)),
        ("comments_present", .bool s.comments_present),
        ("cover_present", .bool s.cover_present)]

/-- `snapshot_hash` from `metadata.rs`: hash of the key-sorted
serialization of the snapshot. -/
def snapshot_hash (snap : Snapshot) : String :=
  sha256_text (stable_json_string (snapshotToJson snap))

/-- `Value::get` on an object (None on non-objects). -/
def jsonGet (v : Json) (k : String) : Option Json :=
  match v with
  | .obj kvs => kvs.lookup k
  | _ => none

/-- `Value::as_str`. -/
def jsonAsStr : Json → Option String
  | .str s => some s
  | _ => none

/-- `v.as_str().unwrap_or(&v.to_string())`. -/
def jsonAsStrOrSerialized (v : Json) : String :=
  match v with
  | .str s => s
  | _ => serializeJson v

/-- `Value::is_null`. -/
def jsonIsNull : Json → Bool
  | .null => true
  | _ => false

/-- HashMap-style insert on an association list (replace or append). -/
def upsertStr (k v : String) : List (String × String) → List (String × String)
  | [] => [(k, v)]
  | (k', v') :: rest => if k' = k then (k, v) :: rest else (k', v') :: upsertStr k v rest

/-- `normalize_identifiers` from `metadata.rs`. -/
def normalize_identifiers (val : Json) : List (String × String) :=
  match val with
  | .obj kvs =>
    kvs.foldl
      (fun out p =>
        let key := strToLower (strTrim p.1)
        let val_s := strTrim (jsonAsStrOrSerialized p.2)
        if !strIsEmpty key && !strIsEmpty val_s then upsertStr key val_s out else out)
      []
  | _ => []

/-- `normalize_languages` from `metadata.rs`. -/
def normalize_languages (val : Json) : List String :=
  match val with
  | .null => []
  | .arr xs =>
    ((xs.filterMap jsonAsStr).map (fun s => strToLower (strTrim s))).filter
      (fun s => !strIsEmpty s)
  | v =>
    let s := strToLower (strTrim (jsonAsStrOrSerialized v))
    if strIsEmpty s then [] else [s]

/-- `normalize_formats` from `metadata.rs`. -/
def normalize_formats (val : Json) : List String :=
  match val with
  | .null => []
  | .arr xs =>
    ((xs.filterMap jsonAsStr).map (fun s => strToLower (strTrim s))).filter
      (fun s => !strIsEmpty s)
  | v =>
    let s := strToLower (jsonAsStrOrSerialized v)
    ((strSplitComma (strReplaceChar ';' ',' s)).map (fun x => strTrim x)).filter
      (fun x => !strIsEmpty x)

/-- `has_any_format` from `metadata.rs`; the `BTreeMap<String, ()>` of
target formats is modelled as the list of its keys. -/
def has_any_format (formats_val : Json) (targets : List String) : Bool :=
  let fmts := normalize_formats formats_val
  if fmts.isEmpty then false
  else fmts.any (fun f => targets.contains f)

/-- `is_english_or_missing` from `metadata.rs`. -/
def is_english_or_missing (langs : List String) (include_missing_language : Bool)
    (english_codes : List String) : Bool :=
  if langs.isEmpty then include_missing_language
  else
    langs.any (fun x =>
      let x2 := strToLower (strReplaceChar '_' '-' x)
      english_codes.contains x2 || strStartsWith x2 "en-" || x2 == "english")

/-- `metadata_snapshot` from `metadata.rs`. -/
def metadata_snapshot (book : Json) : Snapshot :=
  let identifiers := normalize_identifiers ((jsonGet book "identifiers").getD .null)
  let langs := normalize_languages ((jsonGet book "languages").getD .null)
  let authors_val := (jsonGet book "authors").getD .null
  let authors :=
    match authors_val with
    | .arr xs =>
      ((xs.filterMap jsonAsStr).map (fun s => strTrim s)).filter (fun s => !strIsEmpty s)
    | v =>
      let s := strTrim ((jsonAsStr v).getD "")
      if strIsEmpty s then [] else [s]
  let tags_val := (jsonGet book "tags").getD .null
  let tags :=
    match tags_val with
    | .arr xs =>
      ((xs.filterMap jsonAsStr).map (fun s => strTrim s)).filter (fun s => !strIsEmpty s)
    | v =>
      let s := strTrim ((jsonAsStr v).getD "")
      if strIsEmpty s then []
      else ((strSplitComma s).map (fun x => strTrim x)).filter (fun x => !strIsEmpty x)
  { title := strTrim (((jsonGet book "title").bind jsonAsStr).getD "")
    authors := authors
    publisher := strTrim (((jsonGet book "publisher").bind jsonAsStr).getD "")
    pubdate := strTrim (((jsonGet book "pubdate").bind jsonAsStr).getD "")
    languages := langs
    isbn := strTrim (((jsonGet book "isbn").bind jsonAsStr).getD "")
    identifiers := identifiers
    tags := tags
    comments_present :=
      (((jsonGet book "comments").bind jsonAsStr).map
        (fun s => !strIsEmpty (strTrim s))).getD false
    cover_present :=
      (jsonGet book "cover").isSome && !(jsonIsNull ((jsonGet book "cover").getD .null)) }

/-- `ScoringConfig` from `config.rs` (i32 weights modelled as `Int`). -/
structure ScoringConfig where
  min_score_to_skip_fetch : Int
  require_title : Bool
  require_authors : Bool
  title_weight : Int
  authors_weight : Int
  publisher_weight : Int
  pubdate_weight : Int
  isbn_weight : Int
  identifiers_weight : Int
  tags_weight : Int
  comments_weight : Int
  cover_weight : Int
deriving DecidableEq

/-- Default scoring configuration from `config.rs`. -/
def defaultScoring : ScoringConfig :=
  { min_score_to_skip_fetch := 6
    require_title := true
    require_authors := true
    title_weight := 1
    authors_weight := 1
    publisher_weight := 1
    pubdate_weight := 1
    isbn_weight := 2
    identifiers_weight := 2
    tags_weight := 1
    comments_weight := 1
    cover_weight := 1 }

/-- Reduction of an integer into the `i32` range, as Rust release-mode
wrapping addition leaves it (a debug build would panic instead of
wrapping; the wrap is what the shipped binary computes). -/
def wrap32 (n : Int) : Int := (n + 2147483648) % 4294967296 - 2147483648

/-- One conditional `score += weight` step of `score_good_enough`; the
sum is an `i32` addition, modelled with wrapping. -/
def addIf (c : Bool) (w x : Int) : Int := if c then wrap32 (x + w) else x

/-- `score_good_enough` from `metadata.rs`: conditional `i32` weight
additions in source order, plus the list of missing-field reasons. -/
def score_good_enough (snap : Snapshot) (scoring : ScoringConfig) : Int × List String :=
  let s1 := addIf (!strIsEmpty snap.title) scoring.title_weight 0
  let s2 := addIf (!snap.authors.isEmpty) scoring.authors_weight s1
  let s3 := addIf (!strIsEmpty snap.publisher) scoring.publisher_weight s2
  let s4 := addIf (!strIsEmpty snap.pubdate) scoring.pubdate_weight s3
  let s5 :=
    if !strIsEmpty snap.isbn then wrap32 (s4 + scoring.isbn_weight)
    else if !snap.identifiers.isEmpty then wrap32 (s4 + scoring.identifiers_weight)
    else s4
  let s6 := addIf (!snap.tags.isEmpty) scoring.tags_weight s5
  let s7 := addIf snap.comments_present scoring.comments_weight s6
  let s8 := addIf snap.cover_present scoring.cover_weight s7
  let reasons :=
    (if strIsEmpty snap.title then ["missing title"] else []) ++
    (if snap.authors.isEmpty then ["missing authors"] else []) ++
    (if strIsEmpty snap.publisher then ["missing publisher"] else []) ++
    (if strIsEmpty snap.pubdate then ["missing pubdate"] else []) ++
    (if strIsEmpty snap.isbn && snap.identifiers.isEmpty then
      ["missing identifiers/isbn"] else []) ++
    (if snap.tags.isEmpty then ["missing tags"] else []) ++
    (if !snap.comments_present then ["missing description/comments"] else []) ++
    (if !snap.cover_present then ["missing cover"] else [])
  (s8, reasons)

/-! ## Item state store (`state.rs`) -/

/-- `BookState` from `state.rs`. -/
structure BookState where
  status : String
  last_hash : String
  last_attempt_utc : String
  last_ok_utc : Option String
  message : Option String
  fail_count : Int
deriving DecidableEq

/-- `StateFile` from `state.rs`; the id-to-state HashMap is an
association list with unique keys (maintained by `upsertBook`). -/
structure StateFile where
  version : Int
  updated_at_utc : Option String
  books : List (String × BookState)
deriving DecidableEq

/-- HashMap-style insert for the book map (replace or append). -/
def upsertBook (k : String) (v : BookState) : List (String × BookState) → List (String × BookState)
  | [] => [(k, v)]
  | (k', v') :: rest => if k' = k then (k, v) :: rest else (k', v') :: upsertBook k v rest

/-- `get_book_state` from `state.rs`. -/
def get_book_state (state : StateFile) (book_id : Int) : Option BookState :=
  state.books.lookup (i64_to_string book_id)

/-- `put_book_state` from `state.rs`. -/
def put_book_state (state : StateFile) (book_id : Int) (bs : BookState) : StateFile :=
  { state with books := upsertBook (i64_to_string book_id) bs state.books }

theorem lookup_upsertBook_self (k : String) (v : BookState)
    (l : List (String × BookState)) : (upsertBook k v l).lookup k = some v := by
  induction l with
  | nil => simp [upsertBook, List.lookup]
  | cons p rest ih =>
    obtain ⟨k', v'⟩ := p
    by_cases h : k' = k
    · subst h
      simp [upsertBook, List.lookup]
    · rw [upsertBook, if_neg h, List.lookup]
      have hb : (k == k') = false := beq_eq_false_iff_ne.mpr (Ne.symm h)
      rw [hb]
      exact ih

theorem lookup_upsertBook_other (k k' : String) (v : BookState)
    (l : List (String × BookState)) (hne : k' ≠ k) :
    (upsertBook k v l).lookup k' = l.lookup k' := by
  have hb : (k' == k) = false := beq_eq_false_iff_ne.mpr hne
  induction l with
  | nil => simp [upsertBook, List.lookup, hb]
  | cons p rest ih =>
    obtain ⟨k0, v0⟩ := p
    by_cases h : k0 = k
    · subst h
      rw [upsertBook, if_pos rfl, List.lookup, List.lookup, hb]
    · rw [upsertBook, if_neg h, List.lookup, List.lookup]
      cases hx : k' == k0
      · exact ih
      · rfl

/-! ## Process runner (`runner.rs`)

External process execution is modelled by an oracle `f : Env → CmdResult`
giving the result of running the (fixed) command under a given
environment.  Spawn failures are outside the model (the oracle is total);
every tool failure is a non-zero `status_code`, as in the source. -/

/-- `CmdResult` from `runner.rs`. -/
structure CmdResult where
  status_code : Int
  stdout : String
  stderr : String
  timed_out : Bool
deriving DecidableEq

/-- Environments as partial maps from variable names to values. -/
abbrev Env := String → Option String

/-- `should_clean_env_key` from `runner.rs`. -/
def should_clean_env_key (key : String) : Bool :=
  strStartsWith key "PYTHON" || strStartsWith key "VIRTUAL_ENV" || strStartsWith key "UV_" ||
  strStartsWith key "PIP_" || strStartsWith key "CONDA" || strStartsWith key "POETRY" ||
  strStartsWith key "PYENV"

/-- `CALIBRE_ENVS` from `runner.rs`: the fixed ordered locale fallback
list (UTF-8 en_US, UTF-8 C, POSIX C). -/
def CALIBRE_ENVS : List (List (String × String)) :=
  [[("LC_ALL", "en_US.utf8"), ("LANG", "en_US.utf8"), ("LANGUAGE", "en_US:en"),
    ("CALIBRE_OVERRIDE_LANG", "en")],
   [("LC_ALL", "C.utf8"), ("LANG", "C.utf8"), ("LANGUAGE", "en"),
    ("CALIBRE_OVERRIDE_LANG", "en")],
   [("LC_ALL", "C"), ("LANG", "C"), ("LANGUAGE", "en"),
    ("CALIBRE_OVERRIDE_LANG", "en")]]

/-- `base_env.retain(|k, _| !should_clean_env_key(k))`. -/
def cleanEnv (env : Env) : Env :=
  fun k => if should_clean_env_key k then none else env k

/-- Apply one locale override set on top of a base environment
(`env.insert` for each pair). -/
def applyOverrides (env : Env) (ov : List (String × String)) : Env :=
  ov.foldl (fun e kv => fun k => if k = kv.1 then some kv.2 else e k) env

/-- The retry loop of the Override branch of `Runner::run_with_timeout`:
`last` starts as the first attempt; each variant is tried in order with
early return on exit status 0, and the final attempt is kept. -/
def overrideGo (f : Env → CmdResult) (base : Env) :
    List (List (String × String)) → CmdResult → CmdResult
  | [], last => last
  | ov :: rest, _ =>
    let attempt := f (applyOverrides base ov)
    if attempt.status_code = 0 then attempt else overrideGo f base rest attempt

/-- The `CalibreEnvMode::Override` branch of `Runner::run_with_timeout`
(runner.rs): one unmodified run, then the locale fallback loop. -/
def runCalibredbOverride (f : Env → CmdResult) (base : Env) : CmdResult :=
  let first := f base
  if first.status_code = 0 then first
  else overrideGo f base CALIBRE_ENVS first

/-- The stderr signature that triggers the Inherit-mode clean retry:
the string `No module named` followed by a quoted `msgpack`. -/
def msgpackSig : String :=
  "No module named " ++ ⟨[Char.ofNat 39]⟩ ++ "msgpack" ++ ⟨[Char.ofNat 39]⟩

/-- The `CalibreEnvMode::Inherit` branch of `Runner::run_with_timeout`
(runner.rs): one unmodified run; on failure whose stderr contains the
missing-msgpack signature, a single retry with the cleaned environment.
Also returns the list of environments attempted, in order. -/
def runCalibredbInherit (f : Env → CmdResult) (base : Env) : CmdResult × List Env :=
  let first := f base
  if first.status_code = 0 then (first, [base])
  else if containsSub msgpackSig first.stderr then
    (f (cleanEnv base), [base, cleanEnv base])
  else (first, [base])

/-- The `CalibreEnvMode::Clean` branch of `Runner::run_with_timeout`. -/
def runCalibredbClean (f : Env → CmdResult) (base : Env) : CmdResult :=
  f (cleanEnv base)

/-! ### Streaming fetch execution (`run_fetch_streaming`)

The child process is modelled by when it would exit and which output text
arrives during each one-second polling interval; the polling loop of
`run_fetch_streaming` is translated with one step per `wait_timeout(1s)`
call. -/

/-- Model of the external fetch process: `exitAt = some (te, code)` means
the process exits after `te` seconds with the given code; `none` means it
never exits on its own.  `outText t`/`errText t` is the output arriving
during second `t`. -/
structure ProcSpec where
  exitAt : Option (Nat × Int)
  outText : Nat → String
  errText : Nat → String

/-- Concatenation of the per-second output chunks for seconds `0..n`. -/
def concatUpTo (f : Nat → String) (n : Nat) : String :=
  (List.range n).foldl (fun acc t => acc ++ f t) ""

/-- One-second polling loop of `run_fetch_streaming`: wait up to 1s for
exit; on exit, drain everything and return the real status; otherwise
drain this second's output, kill with sentinel status 124 once the
elapsed time reaches the timeout, and emit heartbeats (observability
only, not modelled). -/
def streamGo (p : ProcSpec) (timeout : Nat) :
    Nat → Nat → String → String → CmdResult
  | 0, _, accOut, accErr =>
    { status_code := 124, stdout := accOut, stderr := accErr, timed_out := true }
  | fuel + 1, t, accOut, accErr =>
    match p.exitAt with
    | some (te, code) =>
      if te ≤ t + 1 then
        { status_code := code, stdout := concatUpTo p.outText te,
          stderr := concatUpTo p.errText te, timed_out := false }
      else
        let accOut := accOut ++ p.outText t
        let accErr := accErr ++ p.errText t
        if t + 1 ≥ timeout then
          { status_code := 124, stdout := accOut, stderr := accErr, timed_out := true }
        else streamGo p timeout fuel (t + 1) accOut accErr
    | none =>
      let accOut := accOut ++ p.outText t
      let accErr := accErr ++ p.errText t
      if t + 1 ≥ timeout then
        { status_code := 124, stdout := accOut, stderr := accErr, timed_out := true }
      else streamGo p timeout fuel (t + 1) accOut accErr

/-- `run_fetch_streaming` from `runner.rs` (timeout in whole seconds). -/
def run_fetch_streaming (p : ProcSpec) (timeout : Nat) : CmdResult :=
  streamGo p timeout timeout 0 "" ""

/-! ## Calibre tool wrappers (`calibre.rs`) -/

/-- Decimal rendering of a `Nat` (Rust `u64` Display). -/
def natToString (n : Nat) : String := ⟨natToDecimal n⟩

/-- First 500 characters of a string (`chars().take(500)`). -/
def take500 (s : String) : String := ⟨s.data.take 500⟩

/-- Result interpretation of `fetch_metadata_to_opf_and_cover`
(calibre.rs): given the streaming run result and the state of the OPF
output file, decide success and build the outcome message.  The command
construction (isbn / identifiers / title / authors) does not affect the
outcome and is not modelled. -/
def fetch_metadata_to_opf_and_cover (cp : CmdResult) (timeout_seconds : Nat)
    (opf_exists : Bool) (opf_len : Nat) : Bool × String :=
  if cp.timed_out then
    (false, "fetch-ebook-metadata timed out after " ++ natToString timeout_seconds ++ "s")
  else if cp.status_code ≠ 0 then
    (false, "fetch-ebook-metadata failed rc=" ++ i64_to_string cp.status_code ++
      (if !strIsEmpty (strTrim cp.stderr) then " stderr=" ++ take500 (strTrim cp.stderr)
        else ""))
  else if !opf_exists || opf_len = 0 then
    (false, "fetch-ebook-metadata produced no OPF")
  else (true, "fetched")

/-- Operator guidance emitted when another Calibre process holds the
catalog open. -/
def calibreLockGuidance : String :=
  "calibredb refused to use the library because Calibre (or calibre-server) is running.\nEither close Calibre or pass --library-url pointing at the running Content Server."

/-- Operator guidance emitted when a remote library URL is not found. -/
def calibreNotFoundGuidance : String :=
  "calibredb returned Not Found for the library URL.\nCheck the Content Server URL and library id, and avoid a trailing slash after the fragment.\nExample: --library-url \"http://localhost:8081/#en_nonfiction\""

/-- Is a JSON value an object? -/
def jsonIsObj : Json → Bool
  | .obj _ => true
  | _ => false

/-- `list_candidate_books` from `calibre.rs`: interpretation of the
`calibredb list` result.  `cp` is the command result and `parse` models
`serde_json::from_str` on its stdout. -/
def list_candidate_books (cp : CmdResult) (lib : String)
    (parse : String → Option Json) (include_missing_language : Bool)
    (english_codes : List String) (target_formats : List String) :
    Except String (List Json) :=
  if target_formats.isEmpty then .error "No target formats provided."
  else if cp.status_code ≠ 0 then
    let stderrL := strToLower cp.stderr
    if containsSub "another calibre program such as calibre-server" stderrL ||
        containsSub "another calibre program such as calibre server" stderrL then
      .error calibreLockGuidance
    else if containsSub "not found" stderrL && strStartsWith lib "http" then
      .error calibreNotFoundGuidance
    else if containsSub "no books matching the search expression" stderrL then
      .ok []
    else .error "calibredb list failed"
  else
    match parse cp.stdout with
    | none => .error "invalid JSON from calibredb list"
    | some data =>
      match data with
      | .arr arr =>
        .ok (arr.filter (fun b =>
          jsonIsObj b &&
          has_any_format ((jsonGet b "formats").getD .null) target_formats &&
          is_english_or_missing
            (normalize_languages ((jsonGet b "languages").getD .null))
            include_missing_language english_codes))
      | _ => .error "Unexpected JSON shape from calibredb list"

/-! ## Per-item pipeline (`app.rs`)

`process_one_book` is embedded with the results of its external tool
invocations supplied by an `ExtCalls` oracle.  Each `save_state` call is
recorded as a `.save` event carrying the book map that is written to
disk at that point, so the on-disk state file after the call is the
payload of the last `.save` event (or the unchanged prior file when no
save occurs).  `put_book_state` arguments are additionally collected in
`writes`, in order. -/

/-- Observable effects of one `process_one_book` run: persisted state
writes and external subprocess invocations, in order. -/
inductive Event where
  | save (books : List (String × BookState)) : Event
  | fetchCall : Event
  | applyOpfCall : Event
  | applyCoverCall : Event
  | embedCall : Event
  | refreshCall : Event
deriving DecidableEq

/-- Events that mutate the external catalog (calibredb set_metadata /
embed_metadata); fetch and refresh (list) do not mutate it. -/
def Event.isCatalogMutation : Event → Bool
  | .applyOpfCall => true
  | .applyCoverCall => true
  | .embedCall => true
  | _ => false

/-- Results of the external tool invocations that one item's processing
may perform, in the order the pipeline would issue them. -/
structure ExtCalls where
  fetch : Bool × String
  applyOpf : Bool × String
  applyCover : Bool × String
  embed : Bool × String
  refreshed : Option Json

/-- Outcome of `process_one_book`: its returned action string, the final
in-memory state, the event trace, and the `BookState` records written. -/
structure ItemOutcome where
  action : String
  state : StateFile
  events : List Event
  writes : List BookState
deriving DecidableEq

/-- `Value::as_i64`. -/
def jsonAsI64 : Json → Option Int
  | .num n => some n
  | _ => none

/-- The resting statuses from `app.rs`: items in these states are
skipped unless metadata-change reprocessing applies. -/
def restingStatuses : List String :=
  ["done", "skipped_good_enough", "embedded_only", "failed_permanent"]

/-- The resting-state short-circuit condition of `process_one_book`. -/
def restingSkip (prev : Option BookState) (reprocess_on_metadata_change : Bool)
    (h : String) : Bool :=
  match prev with
  | some p =>
    restingStatuses.contains p.status &&
      (!reprocess_on_metadata_change || p.last_hash == h)
  | none => false

/-- The good-enough test of `process_one_book`. -/
def goodEnough (snap : Snapshot) (scoring : ScoringConfig) : Bool :=
  (score_good_enough snap scoring).1 ≥ scoring.min_score_to_skip_fetch &&
    (!scoring.require_title || !strIsEmpty snap.title) &&
    (!scoring.require_authors || !snap.authors.isEmpty)

/-- `process_one_book` from `app.rs`.  `now` stands for `now_iso()`
(every timestamp taken during this item's processing).  The
inter-fetch delay is pure timing and is not an event. -/
def process_one_book (calls : ExtCalls) (state : StateFile) (book : Json)
    (reprocess_on_metadata_change : Bool) (scoring : ScoringConfig)
    (dry_run : Bool) (now : String) : Except String ItemOutcome :=
  match (jsonGet book "id").bind jsonAsI64 with
  | none => .error "missing book id"
  | some book_id =>
    let snap := metadata_snapshot book
    let h := snapshot_hash snap
    let prev := get_book_state state book_id
    if restingSkip prev reprocess_on_metadata_change h then
      .ok ⟨"skipped", state, [], []⟩
    else
      let sr := score_good_enough snap scoring
      let good_enough := goodEnough snap scoring
      let started : BookState :=
        ⟨"started", h, now, prev.bind (·.last_ok_utc), some "started",
          ((prev.map (·.fail_count)).getD 0)⟩
      let state1 := put_book_state state book_id started
      if good_enough then
        if dry_run then
          .ok ⟨"embedded_only", state1, [.save state1.books], [started]⟩
        else
          let ok_embed := calls.embed.1
          let msg_embed := calls.embed.2
          let bs : BookState :=
            ⟨if ok_embed then "embedded_only" else "failed", h, now,
              if ok_embed then some now else prev.bind (·.last_ok_utc),
              some (if ok_embed then "good enough; embedded"
                else msg_embed ++ " (good enough reasons: " ++
                  joinSep ", " sr.2 ++ ")"),
              if ok_embed then 0 else ((prev.map (·.fail_count + 1)).getD 1)⟩
          let state2 := put_book_state state1 book_id bs
          .ok ⟨if ok_embed then "done" else "failed", state2,
            [.save state1.books, .embedCall, .save state2.books], [started, bs]⟩
      else
        if dry_run then
          .ok ⟨"updated", state1, [.save state1.books], [started]⟩
        else
          let ok_fetch := calls.fetch.1
          let msg_fetch := calls.fetch.2
          if !ok_fetch then
            let st := if containsSub "timed out" msg_fetch then "failed_permanent"
              else "failed"
            let bs : BookState :=
              ⟨st, h, now, prev.bind (·.last_ok_utc), some msg_fetch,
                ((prev.map (·.fail_count + 1)).getD 1)⟩
            let state2 := put_book_state state1 book_id bs
            .ok ⟨"failed", state2,
              [.save state1.books, .fetchCall, .save state2.books], [started, bs]⟩
          else
            let ok_set := calls.applyOpf.1
            let msg_set := calls.applyOpf.2
            if !ok_set then
              let bs : BookState :=
                ⟨"failed", h, now, prev.bind (·.last_ok_utc), some msg_set,
                  ((prev.map (·.fail_count + 1)).getD 1)⟩
              let state2 := put_book_state state1 book_id bs
              .ok ⟨"failed", state2,
                [.save state1.books, .fetchCall, .applyOpfCall, .save state2.books],
                [started, bs]⟩
            else
              let ok_embed := calls.embed.1
              let msg_embed := calls.embed.2
              if !ok_embed then
                let bs : BookState :=
                  ⟨"failed", h, now, prev.bind (·.last_ok_utc), some msg_embed,
                    ((prev.map (·.fail_count + 1)).getD 1)⟩
                let state2 := put_book_state state1 book_id bs
                .ok ⟨"failed", state2,
                  [.save state1.books, .fetchCall, .applyOpfCall, .applyCoverCall,
                    .embedCall, .save state2.books],
                  [started, bs]⟩
              else
                let new_snap :=
                  match calls.refreshed with
                  | some refreshed_book => metadata_snapshot refreshed_book
                  | none => snap
                let new_hash := snapshot_hash new_snap
                let bs : BookState :=
                  ⟨"done", new_hash, now, some now, some "fetched+applied+embedded", 0⟩
                let state2 := put_book_state state1 book_id bs
                .ok ⟨"done", state2,
                  [.save state1.books, .fetchCall, .applyOpfCall, .applyCoverCall,
                    .embedCall, .refreshCall, .save state2.books],
                  [started, bs]⟩

/-! ## Supporting lemmas: canonicalization by key sort -/

theorem sortValuePairs_eq_map (ps : List (String × Json)) :
    sortValuePairs ps = ps.map (fun p => (p.1, sort_value p.2)) := by
  induction ps with
  | nil => rfl
  | cons p rest ih =>
    obtain ⟨k, v⟩ := p
    simp [sortValuePairs, ih]

/-- Sorting by key is insensitive to the input order of an association
list whose keys are distinct. -/
theorem insertionSort_eq_of_perm_nodupKeys {α : Type} {A B : List (String × α)}
    (hperm : A.Perm B) (hnd : (A.map Prod.fst).Nodup) :
    List.insertionSort keyLe A = List.insertionSort keyLe B := by
  have hSA := List.perm_insertionSort (keyLe (α := α)) A
  have hSB := List.perm_insertionSort (keyLe (α := α)) B
  have hAB : (List.insertionSort keyLe A).Perm (List.insertionSort keyLe B) :=
    hSA.trans (hperm.trans hSB.symm)
  have sA := List.sorted_insertionSort (keyLe (α := α)) A
  have sB := List.sorted_insertionSort (keyLe (α := α)) B
  have sortedKeysA :
      ((List.insertionSort keyLe A).map Prod.fst).Sorted strLe := by
    rw [List.Sorted, List.pairwise_map]
    exact sA
  have sortedKeysB :
      ((List.insertionSort keyLe B).map Prod.fst).Sorted strLe := by
    rw [List.Sorted, List.pairwise_map]
    exact sB
  have keysEq :
      (List.insertionSort keyLe A).map Prod.fst =
        (List.insertionSort keyLe B).map Prod.fst :=
    List.eq_of_perm_of_sorted (hAB.map Prod.fst) sortedKeysA sortedKeysB
  have hlen : (List.insertionSort keyLe A).length = (List.insertionSort keyLe B).length := by
    have := congrArg List.length keysEq
    simpa using this
  apply List.ext_get hlen
  intro i h1 h2
  have hfst :
      ((List.insertionSort keyLe A).get ⟨i, h1⟩).1 =
        ((List.insertionSort keyLe B).get ⟨i, h2⟩).1 := by
    have h1m : i < ((List.insertionSort keyLe A).map Prod.fst).length := by simpa using h1
    have e1 := List.get_of_eq keysEq ⟨i, h1m⟩
    simpa using e1
  have haA : (List.insertionSort keyLe A).get ⟨i, h1⟩ ∈ A :=
    hSA.subset (List.get_mem _ _ _)
  have hbA : (List.insertionSort keyLe B).get ⟨i, h2⟩ ∈ A :=
    hperm.symm.subset (hSB.subset (List.get_mem _ _ _))
  exact List.inj_on_of_nodup_map hnd haA hbA hfst

theorem sort_value_identifiersObj (ids ids2 : List (String × String))
    (hperm : ids.Perm ids2) (hnd : (ids.map Prod.fst).Nodup) :
    sort_value (.obj (ids.map (fun p => (p.1, Json.str p.2)))) =
      sort_value (.obj (ids2.map (fun p => (p.1, Json.str p.2)))) := by
  simp only [sort_value, sortValuePairs_eq_map, List.map_map]
  have hcomp :
      ((fun p => (p.1, sort_value p.2)) ∘ (fun p : String × String => (p.1, Json.str p.2))) =
        (fun p : String × String => (p.1, Json.str p.2)) := by
    funext p
    simp [sort_value]
  rw [hcomp]
  have hnd2 : ((ids.map (fun p : String × String => (p.1, Json.str p.2))).map Prod.fst).Nodup := by
    rw [List.map_map]
    have : (Prod.fst ∘ fun p : String × String => (p.1, Json.str p.2)) = Prod.fst := by
      funext p
      rfl
    rw [this]
    exact hnd
  exact congrArg Json.obj
    (insertionSort_eq_of_perm_nodupKeys
      (hperm.map (fun p : String × String => (p.1, Json.str p.2))) hnd2)

/-- C3 (amended): the fingerprint is insensitive to the association
order of the identifier map: permuting the identifier entries of a
snapshot (keys being distinct, as in a real `HashMap`) never changes
`snapshot_hash`, because the serialization sorts object keys
recursively.  (Array element order — authors, tags, languages — is
preserved by the serialization and does change the fingerprint, see the
counterexample.) -/
theorem c3_fingerprint_key_order (s : Snapshot) (ids2 : List (String × String))
    (hperm : s.identifiers.Perm ids2) (hnd : (s.identifiers.map Prod.fst).Nodup) :
    snapshot_hash s = snapshot_hash { s with identifiers := ids2 } := by
  have hid := sort_value_identifiersObj s.identifiers ids2 hperm hnd
  have key : sort_value (snapshotToJson s) =
      sort_value (snapshotToJson { s with identifiers := ids2 }) := by
    show Json.obj (List.insertionSort keyLe (sortValuePairs _)) =
      Json.obj (List.insertionSort keyLe (sortValuePairs _))
    congr 1
    congr 1
    simp only [sortValuePairs]
    rw [hid]
  unfold snapshot_hash stable_json_string
  rw [key]

/-- Witness for C3 (amended): two concrete snapshots whose identifier
maps list the same entries in different orders fingerprint identically. -/
theorem c3_fingerprint_key_order_witness :
    ([("isbn", "1"), ("doi", "2")] : List (String × String)).Perm
        [("doi", "2"), ("isbn", "1")] ∧
    snapshot_hash ⟨"t", [], "", "", [], "", [("isbn", "1"), ("doi", "2")], [], false, false⟩ =
      snapshot_hash ⟨"t", [], "", "", [], "", [("doi", "2"), ("isbn", "1")], [], false, false⟩ :=
  ⟨by decide,
    c3_fingerprint_key_order
      ⟨"t", [], "", "", [], "", [("isbn", "1"), ("doi", "2")], [], false, false⟩
      [("doi", "2"), ("isbn", "1")] (by decide) (by decide)⟩

/-- C3 (counterexample): two snapshots that are equal except for the
order of the `authors` array have different fingerprints — `sort_value`
sorts object keys only and preserves array element order, so the claim
that array element order never changes the fingerprint is false. -/
theorem c3_counterexample :
    snapshot_hash ⟨"", ["a", "b"], "", "", [], "", [], [], false, false⟩ ≠
      snapshot_hash ⟨"", ["b", "a"], "", "", [], "", [], [], false, false⟩ := by
  decide

/-- C10: reading an id immediately after storing a record under that id
returns exactly the stored record, and storing under one id leaves every
other id's record unchanged (`get_book_state` / `put_book_state`,
state.rs). -/
theorem c10_put_get (state : StateFile) (id : Int) (bs : BookState) :
    get_book_state (put_book_state state id bs) id = some bs ∧
    ∀ id2 : Int, id2 ≠ id →
      get_book_state (put_book_state state id bs) id2 = get_book_state state id2 := by
  constructor
  · exact lookup_upsertBook_self (i64_to_string id) bs state.books
  · intro id2 hne
    exact lookup_upsertBook_other (i64_to_string id) (i64_to_string id2) bs state.books
      (fun he => hne (i64_to_string_injective he))

/-- Witness for C10 at a concrete store, id and record. -/
theorem c10_put_get_witness :
    get_book_state (put_book_state ⟨1, none, []⟩ 7 ⟨"done", "", "", none, none, 0⟩) 7 =
      some ⟨"done", "", "", none, none, 0⟩ ∧
    get_book_state (put_book_state ⟨1, none, []⟩ 7 ⟨"done", "", "", none, none, 0⟩) 8 =
      get_book_state ⟨1, none, []⟩ 8 :=
  ⟨(c10_put_get ⟨1, none, []⟩ 7 ⟨"done", "", "", none, none, 0⟩).1,
    (c10_put_get ⟨1, none, []⟩ 7 ⟨"done", "", "", none, none, 0⟩).2 8 (by decide)⟩

/-! ## Claims about the process runner -/

/-- The results all attempts of the Override strategy would produce, in
order: the unmodified environment first, then each locale variant. -/
def overrideAttempts (f : Env → CmdResult) (base : Env) : List CmdResult :=
  f base :: CALIBRE_ENVS.map (fun ov => f (applyOverrides base ov))

theorem overrideGo_spec (f : Env → CmdResult) (base : Env) :
    ∀ (ovs : List (List (String × String))) (last : CmdResult),
      overrideGo f base ovs last =
        (((ovs.map (fun ov => f (applyOverrides base ov))).find?
            (fun r => r.status_code == 0)).getD
          ((ovs.map (fun ov => f (applyOverrides base ov))).getLastD last)) := by
  intro ovs
  induction ovs with
  | nil => intro last; rfl
  | cons ov rest ih =>
    intro last
    rw [overrideGo]
    by_cases h : (f (applyOverrides base ov)).status_code = 0
    · rw [if_pos h, List.map_cons, List.find?_cons_of_pos _ (by simpa using h)]
      rfl
    · rw [if_neg h, List.map_cons, List.find?_cons_of_neg _ (by simpa using h),
        List.getLastD_cons, ih]

/-- C5: under the Override strategy the command runs once with the
unmodified environment; on non-zero exit it is retried with each locale
variant of `CALIBRE_ENVS` in order; the first zero-exit result is
returned, and when every attempt fails the last attempt's result (the
POSIX C variant, still a plain `CmdResult` with non-zero status) is
returned. -/
theorem c5_override_strategy (f : Env → CmdResult) (base : Env) :
    runCalibredbOverride f base =
      (((overrideAttempts f base).find? (fun r => r.status_code == 0)).getD
        ((overrideAttempts f base).getLastD (f base))) ∧
    ((∀ r ∈ overrideAttempts f base, r.status_code ≠ 0) →
      runCalibredbOverride f base =
        f (applyOverrides base (CALIBRE_ENVS.getLastD [])) ∧
      (runCalibredbOverride f base).status_code ≠ 0) := by
  have hmain : runCalibredbOverride f base =
      (((overrideAttempts f base).find? (fun r => r.status_code == 0)).getD
        ((overrideAttempts f base).getLastD (f base))) := by
    rw [runCalibredbOverride, overrideAttempts]
    by_cases h0 : (f base).status_code = 0
    · rw [if_pos h0, List.find?_cons_of_pos _ (by simpa using h0)]
      rfl
    · rw [if_neg h0, List.find?_cons_of_neg _ (by simpa using h0),
        List.getLastD_cons, overrideGo_spec]
  refine ⟨hmain, fun hall => ?_⟩
  have hnone : (overrideAttempts f base).find? (fun r => r.status_code == 0) = none := by
    rw [List.find?_eq_none]
    intro r hr
    simpa using hall r hr
  have hlast : runCalibredbOverride f base =
      f (applyOverrides base (CALIBRE_ENVS.getLastD [])) := by
    rw [hmain, hnone]
    simp [overrideAttempts, CALIBRE_ENVS]
  refine ⟨hlast, ?_⟩
  rw [hlast]
  apply hall
  simp [overrideAttempts, CALIBRE_ENVS]

/-- Witness for C5: an oracle that fails under every environment; the
Override strategy returns the last attempt's non-zero result. -/
theorem c5_override_strategy_witness :
    (runCalibredbOverride (fun _ => ⟨1, "", "boom", false⟩) (fun _ => none)).status_code ≠ 0 :=
  ((c5_override_strategy (fun _ => ⟨1, "", "boom", false⟩) (fun _ => none)).2
    (by
      intro r hr
      simp only [overrideAttempts, CALIBRE_ENVS, List.map_cons, List.map_nil,
        List.mem_cons, List.not_mem_nil, or_false] at hr
      rcases hr with rfl | rfl | rfl | rfl <;> decide)).2

/-- C9: under the Inherit strategy the command runs once with the
unmodified environment; exactly when that run exits non-zero with the
missing-msgpack signature in stderr, it is retried once with the Clean
strategy (denylist-prefixed variables stripped) and the retry's result
is returned whether or not it succeeded; any other first result is
returned without retry. -/
theorem c9_inherit_strategy (f : Env → CmdResult) (base : Env) :
    ((runCalibredbInherit f base).2 = [base, cleanEnv base] ↔
      ((f base).status_code ≠ 0 ∧ containsSub msgpackSig (f base).stderr = true)) ∧
    ((f base).status_code ≠ 0 → containsSub msgpackSig (f base).stderr = true →
      (runCalibredbInherit f base).1 = f (cleanEnv base)) ∧
    ((f base).status_code ≠ 0 → containsSub msgpackSig (f base).stderr = false →
      (runCalibredbInherit f base).1 = f base) ∧
    ((f base).status_code = 0 → (runCalibredbInherit f base).1 = f base) ∧
    (∀ k, cleanEnv base k = if should_clean_env_key k then none else base k) := by
  by_cases h0 : (f base).status_code = 0
  · rw [runCalibredbInherit]
    refine ⟨?_, ?_, ?_, ?_, fun _ => rfl⟩
    · rw [if_pos h0]
      simp [h0]
    · intro h
      exact absurd h0 h
    · intro h
      exact absurd h0 h
    · intro _
      rw [if_pos h0]
  · by_cases hs : containsSub msgpackSig (f base).stderr
    · rw [runCalibredbInherit]
      refine ⟨?_, ?_, ?_, ?_, fun _ => rfl⟩
      · rw [if_neg h0, if_pos hs]
        simp [h0, hs]
      · intro _ _
        rw [if_neg h0, if_pos hs]
      · intro _ hcontra
        rw [hs] at hcontra
        cases hcontra
      · intro h
        exact absurd h h0
    · rw [runCalibredbInherit]
      have hsf : containsSub msgpackSig (f base).stderr = false := by
        simpa using hs
      refine ⟨?_, ?_, ?_, ?_, fun _ => rfl⟩
      · rw [if_neg h0, if_neg (by simp [hsf])]
        simp [hsf]
      · intro _ hcontra
        rw [hsf] at hcontra
        cases hcontra
      · intro _ _
        rw [if_neg h0, if_neg (by simp [hsf])]
      · intro h
        exact absurd h h0

/-- Witness for C9: a first run that fails with the msgpack signature is
retried with the cleaned environment and the retry's result is
returned. -/
theorem c9_inherit_strategy_witness :
    (runCalibredbInherit
        (fun e => match e "PYTHONPATH" with
          | some _ => ⟨2, "", "x " ++ msgpackSig ++ " y", false⟩
          | none => ⟨0, "ok", "", false⟩)
        (fun k => if k = "PYTHONPATH" then some "p" else none)).1 =
      (fun e => match e "PYTHONPATH" with
          | some _ => (⟨2, "", "x " ++ msgpackSig ++ " y", false⟩ : CmdResult)
          | none => ⟨0, "ok", "", false⟩)
        (cleanEnv (fun k => if k = "PYTHONPATH" then some "p" else none)) :=
  (c9_inherit_strategy
    (fun e => match e "PYTHONPATH" with
      | some _ => ⟨2, "", "x " ++ msgpackSig ++ " y", false⟩
      | none => ⟨0, "ok", "", false⟩)
    (fun k => if k = "PYTHONPATH" then some "p" else none)).2.1
    (by decide) (by decide)

/-! ## Claims about candidate selection -/

/-- C6: a catalog query whose stderr reports that no items match is an
empty candidate list, not an error; every other non-zero catalog-tool
exit is an error; the two special cases (catalog held open by another
process; remote endpoint not found) are rewritten into operator
guidance before propagation. -/
theorem c6_no_match_is_empty (cp : CmdResult) (lib : String)
    (parse : String → Option Json) (iml : Bool) (ec : List String)
    (tf : List String) (htf : tf.isEmpty = false) (hrc : cp.status_code ≠ 0) :
    (containsSub "another calibre program such as calibre-server" (strToLower cp.stderr) = false →
     containsSub "another calibre program such as calibre server" (strToLower cp.stderr) = false →
     ¬(containsSub "not found" (strToLower cp.stderr) = true ∧ strStartsWith lib "http" = true) →
     containsSub "no books matching the search expression" (strToLower cp.stderr) = true →
     list_candidate_books cp lib parse iml ec tf = .ok []) ∧
    (containsSub "no books matching the search expression" (strToLower cp.stderr) = false →
      ∃ e, list_candidate_books cp lib parse iml ec tf = .error e) ∧
    ((containsSub "another calibre program such as calibre-server" (strToLower cp.stderr) = true ∨
      containsSub "another calibre program such as calibre server" (strToLower cp.stderr) = true) →
     list_candidate_books cp lib parse iml ec tf = .error calibreLockGuidance) ∧
    (containsSub "another calibre program such as calibre-server" (strToLower cp.stderr) = false →
     containsSub "another calibre program such as calibre server" (strToLower cp.stderr) = false →
     containsSub "not found" (strToLower cp.stderr) = true → strStartsWith lib "http" = true →
     list_candidate_books cp lib parse iml ec tf = .error calibreNotFoundGuidance) := by
  refine ⟨?_, ?_, ?_, ?_⟩
  · intro h1 h2 h3 h4
    rw [list_candidate_books, if_neg (by simp [htf]), if_pos hrc]
    rw [if_neg (by simp [h1, h2]), if_neg (by simpa using h3), if_pos h4]
  · intro h4
    rw [list_candidate_books, if_neg (by simp [htf]), if_pos hrc]
    by_cases hl : containsSub "another calibre program such as calibre-server"
        (strToLower cp.stderr) = true ∨
        containsSub "another calibre program such as calibre server"
          (strToLower cp.stderr) = true
    · rw [if_pos (by simpa using hl)]
      exact ⟨_, rfl⟩
    · rw [if_neg (by simpa using hl)]
      by_cases hn : containsSub "not found" (strToLower cp.stderr) = true ∧
          strStartsWith lib "http" = true
      · rw [if_pos (by simp [hn.1, hn.2])]
        exact ⟨_, rfl⟩
      · rw [if_neg (by simpa using hn), if_neg (by simp [h4])]
        exact ⟨_, rfl⟩
  · intro hl
    rw [list_candidate_books, if_neg (by simp [htf]), if_pos hrc,
      if_pos (by rcases hl with h | h <;> simp [h])]
  · intro h1 h2 h3 h4
    rw [list_candidate_books, if_neg (by simp [htf]), if_pos hrc,
      if_neg (by simp [h1, h2]), if_pos (by simp [h3, h4])]

/-- Witness for C6: a non-zero exit whose stderr reports no matching
items yields an empty candidate list. -/
theorem c6_no_match_is_empty_witness :
    list_candidate_books ⟨1, "", "no books matching the search expression were found", false⟩
      "/lib" (fun _ => none) true ["en"] ["epub"] = .ok [] :=
  (c6_no_match_is_empty ⟨1, "", "no books matching the search expression were found", false⟩
    "/lib" (fun _ => none) true ["en"] ["epub"] (by decide) (by decide)).1
    (by decide) (by decide) (by decide) (by decide)

/-! ## Claims about the good-enough score -/

/-- The tracked fields of the good-enough score; ISBN and the identifier
map form one tracked field (the score uses whichever is present). -/
inductive TrackedField where
  | title
  | authors
  | publisher
  | pubdate
  | isbnOrIdentifier
  | tags
  | comments
  | cover
deriving DecidableEq

/-- Presence of a tracked field in a snapshot, as tested by
`score_good_enough`. -/
def present (s : Snapshot) : TrackedField → Bool
  | .title => !strIsEmpty s.title
  | .authors => !s.authors.isEmpty
  | .publisher => !strIsEmpty s.publisher
  | .pubdate => !strIsEmpty s.pubdate
  | .isbnOrIdentifier => !strIsEmpty s.isbn || !s.identifiers.isEmpty
  | .tags => !s.tags.isEmpty
  | .comments => s.comments_present
  | .cover => s.cover_present

/-- Snapshot `s2` adds the previously-missing tracked field `f` to `s`:
`f` was absent and becomes present, every other tracked field keeps its
presence, and (when `f` is not the ISBN-or-identifier field) the ISBN
and identifier components individually keep their presence. -/
def AddsField (f : TrackedField) (s s2 : Snapshot) : Prop :=
  present s f = false ∧ present s2 f = true ∧
  (∀ g : TrackedField, g ≠ f → present s2 g = present s g) ∧
  (f ≠ .isbnOrIdentifier →
    strIsEmpty s2.isbn = strIsEmpty s.isbn ∧
    s2.identifiers.isEmpty = s.identifiers.isEmpty)

/-- All configured weights non-negative. -/
def nonnegWeights (sc : ScoringConfig) : Prop :=
  0 ≤ sc.title_weight ∧ 0 ≤ sc.authors_weight ∧ 0 ≤ sc.publisher_weight ∧
  0 ≤ sc.pubdate_weight ∧ 0 ≤ sc.isbn_weight ∧ 0 ≤ sc.identifiers_weight ∧
  0 ≤ sc.tags_weight ∧ 0 ≤ sc.comments_weight ∧ 0 ≤ sc.cover_weight

/-- The sum of all nine configured weights.  When the weights are
non-negative and this sum stays within the `i32` range, no partial
score sum can overflow. -/
def weightSum (sc : ScoringConfig) : Int :=
  sc.title_weight + sc.authors_weight + sc.publisher_weight + sc.pubdate_weight +
  sc.isbn_weight + sc.identifiers_weight + sc.tags_weight + sc.comments_weight +
  sc.cover_weight

theorem wrap32_eq_self {n : Int} (h1 : -2147483648 ≤ n) (h2 : n ≤ 2147483647) :
    wrap32 n = n := by
  unfold wrap32
  omega

/-- One `addIf` step is monotone and keeps the accumulated score inside
`[0, B + w]` whenever both inputs lie in `[0, B]` and no wrap can
happen. -/
theorem addIf_mono_wrap {c e : Bool} {w x y : Int} (B : Int) (hxy : x ≤ y) (hx : 0 ≤ x)
    (hy : y ≤ B) (hw : 0 ≤ w) (hB : B + w ≤ 2147483647) (hc : c = true → e = true) :
    addIf c w x ≤ addIf e w y ∧ 0 ≤ addIf c w x ∧ addIf e w y ≤ B + w := by
  have ex : wrap32 (x + w) = x + w := wrap32_eq_self (by omega) (by omega)
  have ey : wrap32 (y + w) = y + w := wrap32_eq_self (by omega) (by omega)
  cases c with
  | false =>
    cases e with
    | false =>
      show x ≤ y ∧ 0 ≤ x ∧ y ≤ B + w
      exact ⟨hxy, hx, by omega⟩
    | true =>
      show x ≤ wrap32 (y + w) ∧ 0 ≤ x ∧ wrap32 (y + w) ≤ B + w
      rw [ey]
      exact ⟨by omega, hx, by omega⟩
  | true =>
    have he : e = true := hc rfl
    subst he
    show wrap32 (x + w) ≤ wrap32 (y + w) ∧ 0 ≤ wrap32 (x + w) ∧ wrap32 (y + w) ≤ B + w
    rw [ex, ey]
    exact ⟨by omega, by omega, by omega⟩

/-- The ISBN-or-identifier step when the field is being added: the
lesser side has both components absent and passes through. -/
theorem isbn_added_wrap (b d b2 d2 : Bool) (v w : Int) {x y : Int} (B : Int)
    (hxy : x ≤ y) (hx : 0 ≤ x) (hy : y ≤ B) (hv : 0 ≤ v) (hw : 0 ≤ w)
    (hB : B + v + w ≤ 2147483647) (hb : b = false) (hd : d = false) :
    (if b then wrap32 (x + v) else if d then wrap32 (x + w) else x) ≤
      (if b2 then wrap32 (y + v) else if d2 then wrap32 (y + w) else y) ∧
    0 ≤ (if b then wrap32 (x + v) else if d then wrap32 (x + w) else x) ∧
    (if b2 then wrap32 (y + v) else if d2 then wrap32 (y + w) else y) ≤ B + v + w := by
  have eyv : wrap32 (y + v) = y + v := wrap32_eq_self (by omega) (by omega)
  have eyw : wrap32 (y + w) = y + w := wrap32_eq_self (by omega) (by omega)
  subst hb
  subst hd
  cases b2 with
  | true =>
    show x ≤ wrap32 (y + v) ∧ 0 ≤ x ∧ wrap32 (y + v) ≤ B + v + w
    rw [eyv]
    exact ⟨by omega, hx, by omega⟩
  | false =>
    cases d2 with
    | true =>
      show x ≤ wrap32 (y + w) ∧ 0 ≤ x ∧ wrap32 (y + w) ≤ B + v + w
      rw [eyw]
      exact ⟨by omega, hx, by omega⟩
    | false =>
      show x ≤ y ∧ 0 ≤ x ∧ y ≤ B + v + w
      exact ⟨hxy, hx, by omega⟩

/-- The ISBN-or-identifier step when both components keep their
presence: monotone with preserved bounds. -/
theorem isbn_same_wrap (b d : Bool) (v w : Int) {x y : Int} (B : Int)
    (hxy : x ≤ y) (hx : 0 ≤ x) (hy : y ≤ B) (hv : 0 ≤ v) (hw : 0 ≤ w)
    (hB : B + v + w ≤ 2147483647) :
    (if b then wrap32 (x + v) else if d then wrap32 (x + w) else x) ≤
      (if b then wrap32 (y + v) else if d then wrap32 (y + w) else y) ∧
    0 ≤ (if b then wrap32 (x + v) else if d then wrap32 (x + w) else x) ∧
    (if b then wrap32 (y + v) else if d then wrap32 (y + w) else y) ≤ B + v + w := by
  have exv : wrap32 (x + v) = x + v := wrap32_eq_self (by omega) (by omega)
  have exw : wrap32 (x + w) = x + w := wrap32_eq_self (by omega) (by omega)
  have eyv : wrap32 (y + v) = y + v := wrap32_eq_self (by omega) (by omega)
  have eyw : wrap32 (y + w) = y + w := wrap32_eq_self (by omega) (by omega)
  cases b with
  | true =>
    show wrap32 (x + v) ≤ wrap32 (y + v) ∧ 0 ≤ wrap32 (x + v) ∧ wrap32 (y + v) ≤ B + v + w
    rw [exv, eyv]
    exact ⟨by omega, by omega, by omega⟩
  | false =>
    cases d with
    | true =>
      show wrap32 (x + w) ≤ wrap32 (y + w) ∧ 0 ≤ wrap32 (x + w) ∧ wrap32 (y + w) ≤ B + v + w
      rw [exw, eyw]
      exact ⟨by omega, by omega, by omega⟩
    | false =>
      show x ≤ y ∧ 0 ≤ x ∧ y ≤ B + v + w
      exact ⟨hxy, hx, by omega⟩

/-- C7 (amended): for every scoring configuration whose weights are all
non-negative and together sum to at most 2147483647 — so the `i32`
score accumulation cannot overflow — adding any previously-missing
tracked field never decreases the good-enough score.  (A negative
configured weight, or non-negative weights whose running sum overflows
`i32` and wraps, both break the original claim: see the
counterexample.) -/
theorem c7_score_monotone (s s2 : Snapshot) (sc : ScoringConfig) (f : TrackedField)
    (hw : nonnegWeights sc) (hsum : weightSum sc ≤ 2147483647)
    (hadd : AddsField f s s2) :
    (score_good_enough s sc).1 ≤ (score_good_enough s2 sc).1 := by
  obtain ⟨hw1, hw2, hw3, hw4, hw5, hw6, hw7, hw8, hw9⟩ := hw
  have hS : sc.title_weight + sc.authors_weight + sc.publisher_weight + sc.pubdate_weight +
      sc.isbn_weight + sc.identifiers_weight + sc.tags_weight + sc.comments_weight +
      sc.cover_weight ≤ 2147483647 := hsum
  obtain ⟨hfs, hfs2, hpres, hcomp⟩ := hadd
  have hmono : ∀ g : TrackedField, present s g = true → present s2 g = true := by
    intro g hg
    by_cases hgf : g = f
    · subst hgf
      rw [hfs] at hg
      cases hg
    · rw [hpres g hgf, hg]
  simp only [score_good_enough]
  have s1 := addIf_mono_wrap (c := !strIsEmpty s.title) (e := !strIsEmpty s2.title)
    (w := sc.title_weight) 0 le_rfl le_rfl le_rfl hw1 (by omega) (hmono .title)
  have t2 := addIf_mono_wrap (c := !s.authors.isEmpty) (e := !s2.authors.isEmpty)
    (0 + sc.title_weight) s1.1 s1.2.1 s1.2.2 hw2 (by omega) (hmono .authors)
  have t3 := addIf_mono_wrap (c := !strIsEmpty s.publisher) (e := !strIsEmpty s2.publisher)
    (0 + sc.title_weight + sc.authors_weight) t2.1 t2.2.1 t2.2.2 hw3 (by omega)
    (hmono .publisher)
  have t4 := addIf_mono_wrap (c := !strIsEmpty s.pubdate) (e := !strIsEmpty s2.pubdate)
    (0 + sc.title_weight + sc.authors_weight + sc.publisher_weight) t3.1 t3.2.1 t3.2.2
    hw4 (by omega) (hmono .pubdate)
  by_cases hf : f = TrackedField.isbnOrIdentifier
  · subst hf
    have hboth : strIsEmpty s.isbn = true ∧ s.identifiers.isEmpty = true := by
      have h := hfs
      simp only [present, Bool.or_eq_false_iff, Bool.not_eq_false'] at h
      exact h
    have hb : (!strIsEmpty s.isbn) = false := by simp [hboth.1]
    have hd : (!s.identifiers.isEmpty) = false := by simp [hboth.2]
    have t5 := isbn_added_wrap (!strIsEmpty s.isbn) (!s.identifiers.isEmpty)
      (!strIsEmpty s2.isbn) (!s2.identifiers.isEmpty) sc.isbn_weight sc.identifiers_weight
      (0 + sc.title_weight + sc.authors_weight + sc.publisher_weight + sc.pubdate_weight)
      t4.1 t4.2.1 t4.2.2 hw5 hw6 (by omega) hb hd
    have t6 := addIf_mono_wrap (c := !s.tags.isEmpty) (e := !s2.tags.isEmpty)
      (0 + sc.title_weight + sc.authors_weight + sc.publisher_weight + sc.pubdate_weight +
        sc.isbn_weight + sc.identifiers_weight) t5.1 t5.2.1 t5.2.2 hw7 (by omega)
      (hmono .tags)
    have t7 := addIf_mono_wrap (c := s.comments_present) (e := s2.comments_present)
      (0 + sc.title_weight + sc.authors_weight + sc.publisher_weight + sc.pubdate_weight +
        sc.isbn_weight + sc.identifiers_weight + sc.tags_weight) t6.1 t6.2.1 t6.2.2
      hw8 (by omega) (hmono .comments)
    have t8 := addIf_mono_wrap (c := s.cover_present) (e := s2.cover_present)
      (0 + sc.title_weight + sc.authors_weight + sc.publisher_weight + sc.pubdate_weight +
        sc.isbn_weight + sc.identifiers_weight + sc.tags_weight + sc.comments_weight)
      t7.1 t7.2.1 t7.2.2 hw9 (by omega) (hmono .cover)
    exact t8.1
  · obtain ⟨he1, he2⟩ := hcomp hf
    rw [he1, he2]
    have t5 := isbn_same_wrap (!strIsEmpty s.isbn) (!s.identifiers.isEmpty)
      sc.isbn_weight sc.identifiers_weight
      (0 + sc.title_weight + sc.authors_weight + sc.publisher_weight + sc.pubdate_weight)
      t4.1 t4.2.1 t4.2.2 hw5 hw6 (by omega)
    have t6 := addIf_mono_wrap (c := !s.tags.isEmpty) (e := !s2.tags.isEmpty)
      (0 + sc.title_weight + sc.authors_weight + sc.publisher_weight + sc.pubdate_weight +
        sc.isbn_weight + sc.identifiers_weight) t5.1 t5.2.1 t5.2.2 hw7 (by omega)
      (hmono .tags)
    have t7 := addIf_mono_wrap (c := s.comments_present) (e := s2.comments_present)
      (0 + sc.title_weight + sc.authors_weight + sc.publisher_weight + sc.pubdate_weight +
        sc.isbn_weight + sc.identifiers_weight + sc.tags_weight) t6.1 t6.2.1 t6.2.2
      hw8 (by omega) (hmono .comments)
    have t8 := addIf_mono_wrap (c := s.cover_present) (e := s2.cover_present)
      (0 + sc.title_weight + sc.authors_weight + sc.publisher_weight + sc.pubdate_weight +
        sc.isbn_weight + sc.identifiers_weight + sc.tags_weight + sc.comments_weight)
      t7.1 t7.2.1 t7.2.2 hw9 (by omega) (hmono .cover)
    exact t8.1

/-- The concrete `AddsField` instance used by the C7 witness and
counterexample: the title field is added to an otherwise-empty
snapshot. -/
theorem addsField_title_concrete :
    AddsField .title ⟨"", [], "", "", [], "", [], [], false, false⟩
      ⟨"x", [], "", "", [], "", [], [], false, false⟩ := by
  refine ⟨by decide, by decide, ?_, fun _ => ⟨rfl, rfl⟩⟩
  intro g hg
  cases g
  · exact absurd rfl hg
  all_goals rfl

/-- The concrete `AddsField` instance for the overflow half of the C7
counterexample: the title field is added while the authors stay
present. -/
theorem addsField_title_overflow :
    AddsField .title ⟨"", ["a"], "", "", [], "", [], [], false, false⟩
      ⟨"x", ["a"], "", "", [], "", [], [], false, false⟩ := by
  refine ⟨by decide, by decide, ?_, fun _ => ⟨rfl, rfl⟩⟩
  intro g hg
  cases g
  · exact absurd rfl hg
  all_goals rfl

/-- Witness for C7 (amended) at the default (non-negative,
non-overflowing) weights. -/
theorem c7_score_monotone_witness :
    (score_good_enough ⟨"", [], "", "", [], "", [], [], false, false⟩ defaultScoring).1 ≤
      (score_good_enough ⟨"x", [], "", "", [], "", [], [], false, false⟩ defaultScoring).1 :=
  c7_score_monotone _ _ defaultScoring .title
    (by refine ⟨?_, ?_, ?_, ?_, ?_, ?_, ?_, ?_, ?_⟩ <;> decide)
    (by decide)
    addsField_title_concrete

/-- C7 (counterexample): the original claim fails in two distinct ways.
First, with a configured negative title weight, adding the missing
title strictly decreases the score.  Second, even with all weights
non-negative — title weight 1 and authors weight 2147483647 — the
`i32` accumulation wraps: adding the missing title sends the score
from 2147483647 down to -2147483648. -/
theorem c7_counterexample :
    (AddsField .title ⟨"", [], "", "", [], "", [], [], false, false⟩
        ⟨"x", [], "", "", [], "", [], [], false, false⟩ ∧
      (score_good_enough ⟨"x", [], "", "", [], "", [], [], false, false⟩
          { defaultScoring with title_weight := -1 }).1 <
        (score_good_enough ⟨"", [], "", "", [], "", [], [], false, false⟩
          { defaultScoring with title_weight := -1 }).1) ∧
    (nonnegWeights ⟨6, true, true, 1, 2147483647, 0, 0, 0, 0, 0, 0, 0⟩ ∧
      AddsField .title ⟨"", ["a"], "", "", [], "", [], [], false, false⟩
        ⟨"x", ["a"], "", "", [], "", [], [], false, false⟩ ∧
      (score_good_enough ⟨"x", ["a"], "", "", [], "", [], [], false, false⟩
          ⟨6, true, true, 1, 2147483647, 0, 0, 0, 0, 0, 0, 0⟩).1 <
        (score_good_enough ⟨"", ["a"], "", "", [], "", [], [], false, false⟩
          ⟨6, true, true, 1, 2147483647, 0, 0, 0, 0, 0, 0, 0⟩).1) :=
  ⟨⟨addsField_title_concrete, by decide⟩,
   ⟨by refine ⟨?_, ?_, ?_, ?_, ?_, ?_, ?_, ?_, ?_⟩ <;> decide,
    addsField_title_overflow, by decide⟩⟩

/-! ## Claims about the per-item pipeline -/

/-- A concrete candidate book whose metadata scores above the default
threshold (title, authors, ISBN, tags, description, cover present:
score 1+1+2+1+1+1 = 7 ≥ 6). -/
def exBook : Json :=
  .obj [("id", .num 7), ("title", .str "T"), ("authors", .arr [.str "A"]),
    ("isbn", .str "9783161484100"), ("tags", .arr [.str "t"]),
    ("comments", .str "desc"), ("cover", .str "/covers/7.jpg")]

/-- External calls that all succeed. -/
def exCalls : ExtCalls :=
  ⟨(true, "fetched"), (true, "ok"), (true, "ok"), (true, "embedded"), none⟩

/-- The empty version-1 state file. -/
def emptyStateFile : StateFile := ⟨1, none, []⟩

/-- C1: a dry-run pass over a fresh candidate item reports the
hypothetical action and performs no catalog mutation, but it DOES write
the persisted state file: `process_one_book` records the `started`
state and saves it to disk (app.rs lines 72-81) before consulting the
dry-run flag, leaving the on-disk book map with one record where the
prior file had none.  This contradicts the documented dry-run contract
(and the run loop's own `!dry_run` guard around its save). -/
theorem c1_dry_run_writes_state_file :
    (match process_one_book exCalls emptyStateFile exBook false defaultScoring true "NOW" with
     | .ok o =>
       decide (o.action = "embedded_only") &&
       (o.events.any (fun e => match e with | .save _ => true | _ => false)) &&
       (o.events.all (fun e => !e.isCatalogMutation)) &&
       (match o.events with
        | [Event.save bl] => decide (bl.length = 1 ∧ emptyStateFile.books.length = 0)
        | _ => false)
     | .error _ => false) = true := by
  decide

/-- C2 (amended): for an item that passes the good-enough test, a
successful embed ends the item with persisted status `embedded_only`
(the `EmbeddedOnly` state, reported upward as the action `done`),
`fail_count` 0 and `last_ok_utc` advanced to the current time. -/
theorem c2_good_enough_embed (calls : ExtCalls) (state : StateFile) (book : Json)
    (book_id : Int) (reprocess : Bool) (scoring : ScoringConfig) (now : String)
    (hid : (jsonGet book "id").bind jsonAsI64 = some book_id)
    (hskip : restingSkip (get_book_state state book_id) reprocess
      (snapshot_hash (metadata_snapshot book)) = false)
    (hgood : goodEnough (metadata_snapshot book) scoring = true)
    (hembed : calls.embed.1 = true) :
    ∃ o, process_one_book calls state book reprocess scoring false now = .ok o ∧
      o.action = "done" ∧
      get_book_state o.state book_id =
        some ⟨"embedded_only", snapshot_hash (metadata_snapshot book), now, some now,
          some "good enough; embedded", 0⟩ := by
  have hrun : process_one_book calls state book reprocess scoring false now =
      .ok ⟨"done",
        put_book_state
          (put_book_state state book_id
            ⟨"started", snapshot_hash (metadata_snapshot book), now,
              (get_book_state state book_id).bind (·.last_ok_utc), some "started",
              (((get_book_state state book_id).map (·.fail_count)).getD 0)⟩)
          book_id
          ⟨"embedded_only", snapshot_hash (metadata_snapshot book), now, some now,
            some "good enough; embedded", 0⟩,
        [.save (put_book_state state book_id
            ⟨"started", snapshot_hash (metadata_snapshot book), now,
              (get_book_state state book_id).bind (·.last_ok_utc), some "started",
              (((get_book_state state book_id).map (·.fail_count)).getD 0)⟩).books,
          .embedCall,
          .save (put_book_state
            (put_book_state state book_id
              ⟨"started", snapshot_hash (metadata_snapshot book), now,
                (get_book_state state book_id).bind (·.last_ok_utc), some "started",
                (((get_book_state state book_id).map (·.fail_count)).getD 0)⟩)
            book_id
            ⟨"embedded_only", snapshot_hash (metadata_snapshot book), now, some now,
              some "good enough; embedded", 0⟩).books],
        [⟨"started", snapshot_hash (metadata_snapshot book), now,
            (get_book_state state book_id).bind (·.last_ok_utc), some "started",
            (((get_book_state state book_id).map (·.fail_count)).getD 0)⟩,
          ⟨"embedded_only", snapshot_hash (metadata_snapshot book), now, some now,
            some "good enough; embedded", 0⟩]⟩ := by
    simp [process_one_book, hid, hskip, hgood, hembed]
  refine ⟨_, hrun, rfl, ?_⟩
  show get_book_state (put_book_state _ book_id _) book_id = _
  unfold get_book_state put_book_state
  exact lookup_upsertBook_self _ _ _

/-- Witness for C2 (amended): the concrete good-enough book with a
successful embed. -/
theorem c2_good_enough_embed_witness :
    ∃ o, process_one_book exCalls emptyStateFile exBook false defaultScoring false "NOW" =
        .ok o ∧
      o.action = "done" ∧
      get_book_state o.state 7 =
        some ⟨"embedded_only", snapshot_hash (metadata_snapshot exBook), "NOW", some "NOW",
          some "good enough; embedded", 0⟩ :=
  c2_good_enough_embed exCalls emptyStateFile exBook 7 false defaultScoring "NOW"
    (by decide) (by decide) (by decide) rfl

/-- C2 (counterexample): on the concrete good-enough item with a
successful embed, the persisted status is `embedded_only`, not `done`
(the claim says the persisted status is Done; only the reported action
is `done`). -/
theorem c2_counterexample :
    (goodEnough (metadata_snapshot exBook) defaultScoring = true) ∧
    (match process_one_book exCalls emptyStateFile exBook false defaultScoring false "NOW" with
     | .ok o => (get_book_state o.state 7).map (·.status)
     | .error _ => none) = some "embedded_only" ∧
    (match process_one_book exCalls emptyStateFile exBook false defaultScoring false "NOW" with
     | .ok o => (get_book_state o.state 7).map (·.status)
     | .error _ => none) ≠ some "done" := by
  refine ⟨by decide, ?_, ?_⟩ <;> decide

/-- C8: every state record written by the per-item pipeline sets
`last_attempt_utc` to the current time; `last_ok_utc` is either advanced
to the current time or carried forward from the prior record, never
cleared; successful outcomes (`done`, `embedded_only`) reset
`fail_count` to 0 and advance `last_ok_utc`; failures (`failed`,
`failed_permanent`) increment `fail_count` relative to the prior record
and carry `last_ok_utc` forward; the intermediate `started` marker
carries both forward. -/
theorem c8_transition_invariants (calls : ExtCalls) (state : StateFile) (book : Json)
    (book_id : Int) (reprocess : Bool) (scoring : ScoringConfig) (dry_run : Bool)
    (now : String) (out : ItemOutcome)
    (hid : (jsonGet book "id").bind jsonAsI64 = some book_id)
    (hout : process_one_book calls state book reprocess scoring dry_run now = .ok out) :
    ∀ r ∈ out.writes,
      r.last_attempt_utc = now ∧
      (r.last_ok_utc = some now ∨
        r.last_ok_utc = (get_book_state state book_id).bind (·.last_ok_utc)) ∧
      ((r.status = "done" ∨ r.status = "embedded_only") →
        r.fail_count = 0 ∧ r.last_ok_utc = some now) ∧
      ((r.status = "failed" ∨ r.status = "failed_permanent") →
        r.fail_count = (((get_book_state state book_id).map (·.fail_count)).getD 0) + 1 ∧
        r.last_ok_utc = (get_book_state state book_id).bind (·.last_ok_utc)) ∧
      (r.status = "started" →
        r.fail_count = (((get_book_state state book_id).map (·.fail_count)).getD 0) ∧
        r.last_ok_utc = (get_book_state state book_id).bind (·.last_ok_utc)) := by
  have hfc : (((get_book_state state book_id).map (·.fail_count + 1)).getD 1) =
      (((get_book_state state book_id).map (·.fail_count)).getD 0) + 1 := by
    cases get_book_state state book_id <;> simp
  by_cases hrs : restingSkip (get_book_state state book_id) reprocess
      (snapshot_hash (metadata_snapshot book)) = true
  · simp [process_one_book, hid, hrs] at hout
    subst hout
    intro r hr
    simp at hr
  · have hrs2 : restingSkip (get_book_state state book_id) reprocess
        (snapshot_hash (metadata_snapshot book)) = false := by simpa using hrs
    by_cases hg : goodEnough (metadata_snapshot book) scoring = true
    · by_cases hd : dry_run = true
      · simp [process_one_book, hid, hrs2, hg, hd] at hout
        subst hout
        intro r hr
        simp at hr
        subst hr
        exact ⟨rfl, Or.inr rfl, by simp, by simp, fun _ => ⟨rfl, rfl⟩⟩
      · have hd2 : dry_run = false := by simpa using hd
        by_cases he : calls.embed.1 = true
        · simp [process_one_book, hid, hrs2, hg, hd2, he] at hout
          subst hout
          intro r hr
          simp at hr
          rcases hr with rfl | rfl
          · exact ⟨rfl, Or.inr rfl, by simp, by simp, fun _ => ⟨rfl, rfl⟩⟩
          · exact ⟨rfl, Or.inl rfl, fun _ => ⟨rfl, rfl⟩, by simp, by simp⟩
        · have he2 : calls.embed.1 = false := by simpa using he
          simp [process_one_book, hid, hrs2, hg, hd2, he2] at hout
          subst hout
          intro r hr
          simp at hr
          rcases hr with rfl | rfl
          · exact ⟨rfl, Or.inr rfl, by simp, by simp, fun _ => ⟨rfl, rfl⟩⟩
          · exact ⟨rfl, Or.inr rfl, by simp, fun _ => ⟨hfc, rfl⟩, by simp⟩
    · have hg2 : goodEnough (metadata_snapshot book) scoring = false := by simpa using hg
      by_cases hd : dry_run = true
      · simp [process_one_book, hid, hrs2, hg2, hd] at hout
        subst hout
        intro r hr
        simp at hr
        subst hr
        exact ⟨rfl, Or.inr rfl, by simp, by simp, fun _ => ⟨rfl, rfl⟩⟩
      · have hd2 : dry_run = false := by simpa using hd
        by_cases hf : calls.fetch.1 = true
        · by_cases hset : calls.applyOpf.1 = true
          · by_cases he : calls.embed.1 = true
            · simp [process_one_book, hid, hrs2, hg2, hd2, hf, hset, he] at hout
              subst hout
              intro r hr
              simp at hr
              rcases hr with rfl | rfl
              · exact ⟨rfl, Or.inr rfl, by simp, by simp, fun _ => ⟨rfl, rfl⟩⟩
              · exact ⟨rfl, Or.inl rfl, fun _ => ⟨rfl, rfl⟩, by simp, by simp⟩
            · have he2 : calls.embed.1 = false := by simpa using he
              simp [process_one_book, hid, hrs2, hg2, hd2, hf, hset, he2] at hout
              subst hout
              intro r hr
              simp at hr
              rcases hr with rfl | rfl
              · exact ⟨rfl, Or.inr rfl, by simp, by simp, fun _ => ⟨rfl, rfl⟩⟩
              · exact ⟨rfl, Or.inr rfl, by simp, fun _ => ⟨hfc, rfl⟩, by simp⟩
          · have hset2 : calls.applyOpf.1 = false := by simpa using hset
            simp [process_one_book, hid, hrs2, hg2, hd2, hf, hset2] at hout
            subst hout
            intro r hr
            simp at hr
            rcases hr with rfl | rfl
            · exact ⟨rfl, Or.inr rfl, by simp, by simp, fun _ => ⟨rfl, rfl⟩⟩
            · exact ⟨rfl, Or.inr rfl, by simp, fun _ => ⟨hfc, rfl⟩, by simp⟩
        · have hf2 : calls.fetch.1 = false := by simpa using hf
          simp [process_one_book, hid, hrs2, hg2, hd2, hf2] at hout
          subst hout
          intro r hr
          simp at hr
          rcases hr with rfl | rfl
          · exact ⟨rfl, Or.inr rfl, by simp, by simp, fun _ => ⟨rfl, rfl⟩⟩
          · refine ⟨rfl, Or.inr rfl, ?_, fun _ => ⟨hfc, rfl⟩, ?_⟩
            · intro h
              rcases h with h | h <;> split_ifs at h <;> simp at h
            · intro h
              split_ifs at h <;> simp at h

/-- Witness for C8: the `started` record written for the concrete
good-enough book on a fresh state file. -/
theorem c8_transition_invariants_witness :
    (⟨"started", snapshot_hash (metadata_snapshot exBook), "NOW", none, some "started", 0⟩ :
        BookState).last_attempt_utc = "NOW" ∧
    ((⟨"started", snapshot_hash (metadata_snapshot exBook), "NOW", none, some "started", 0⟩ :
        BookState).last_ok_utc = some "NOW" ∨
      (⟨"started", snapshot_hash (metadata_snapshot exBook), "NOW", none, some "started", 0⟩ :
        BookState).last_ok_utc = (get_book_state emptyStateFile 7).bind (·.last_ok_utc)) ∧
    (((⟨"started", snapshot_hash (metadata_snapshot exBook), "NOW", none, some "started", 0⟩ :
        BookState).status = "done" ∨
      (⟨"started", snapshot_hash (metadata_snapshot exBook), "NOW", none, some "started", 0⟩ :
        BookState).status = "embedded_only") →
      (⟨"started", snapshot_hash (metadata_snapshot exBook), "NOW", none, some "started", 0⟩ :
        BookState).fail_count = 0 ∧
      (⟨"started", snapshot_hash (metadata_snapshot exBook), "NOW", none, some "started", 0⟩ :
        BookState).last_ok_utc = some "NOW") ∧
    (((⟨"started", snapshot_hash (metadata_snapshot exBook), "NOW", none, some "started", 0⟩ :
        BookState).status = "failed" ∨
      (⟨"started", snapshot_hash (metadata_snapshot exBook), "NOW", none, some "started", 0⟩ :
        BookState).status = "failed_permanent") →
      (⟨"started", snapshot_hash (metadata_snapshot exBook), "NOW", none, some "started", 0⟩ :
        BookState).fail_count =
        (((get_book_state emptyStateFile 7).map (·.fail_count)).getD 0) + 1 ∧
      (⟨"started", snapshot_hash (metadata_snapshot exBook), "NOW", none, some "started", 0⟩ :
        BookState).last_ok_utc = (get_book_state emptyStateFile 7).bind (·.last_ok_utc)) ∧
    ((⟨"started", snapshot_hash (metadata_snapshot exBook), "NOW", none, some "started", 0⟩ :
        BookState).status = "started" →
      (⟨"started", snapshot_hash (metadata_snapshot exBook), "NOW", none, some "started", 0⟩ :
        BookState).fail_count =
        (((get_book_state emptyStateFile 7).map (·.fail_count)).getD 0) ∧
      (⟨"started", snapshot_hash (metadata_snapshot exBook), "NOW", none, some "started", 0⟩ :
        BookState).last_ok_utc = (get_book_state emptyStateFile 7).bind (·.last_ok_utc)) :=
  c8_transition_invariants exCalls emptyStateFile exBook 7 false defaultScoring true "NOW"
    ⟨"embedded_only",
      put_book_state emptyStateFile 7
        ⟨"started", snapshot_hash (metadata_snapshot exBook), "NOW", none, some "started", 0⟩,
      [.save (put_book_state emptyStateFile 7
        ⟨"started", snapshot_hash (metadata_snapshot exBook), "NOW", none, some "started", 0⟩).books],
      [⟨"started", snapshot_hash (metadata_snapshot exBook), "NOW", none, some "started", 0⟩]⟩
    (by decide) rfl
    ⟨"started", snapshot_hash (metadata_snapshot exBook), "NOW", none, some "started", 0⟩
    (by simp)

/-! ## Claims about timeout handling -/

/-- The modelled process does not exit within the timeout. -/
def noExitWithin (p : ProcSpec) (timeout : Nat) : Prop :=
  ∀ te code, p.exitAt = some (te, code) → timeout < te

theorem concatUpTo_succ (f : Nat → String) (n : Nat) :
    concatUpTo f (n + 1) = concatUpTo f n ++ f n := by
  simp [concatUpTo, List.range_succ]

theorem streamGo_timeout_aux (p : ProcSpec) (timeout : Nat)
    (hne : noExitWithin p timeout) :
    ∀ fuel t, fuel + t = timeout →
      streamGo p timeout fuel t (concatUpTo p.outText t) (concatUpTo p.errText t) =
        ⟨124, concatUpTo p.outText timeout, concatUpTo p.errText timeout, true⟩ := by
  intro fuel
  induction fuel with
  | zero =>
    intro t ht
    have h : t = timeout := by omega
    subst h
    rfl
  | succ fuel ih =>
    intro t ht
    rw [streamGo]
    split
    · rename_i te code heq
      have hgt : timeout < te := hne te code heq
      rw [if_neg (by omega)]
      rw [← concatUpTo_succ, ← concatUpTo_succ]
      by_cases hend : t + 1 ≥ timeout
      · rw [if_pos hend]
        have h : t + 1 = timeout := by omega
        rw [h]
      · rw [if_neg hend]
        exact ih (t + 1) (by omega)
    · rw [← concatUpTo_succ, ← concatUpTo_succ]
      by_cases hend : t + 1 ≥ timeout
      · rw [if_pos hend]
        have h : t + 1 = timeout := by omega
        rw [h]
      · rw [if_neg hend]
        exact ih (t + 1) (by omega)

/-- On timeout the child is killed and the result carries the sentinel
status 124, `timed_out := true`, and the output captured so far. -/
theorem run_fetch_streaming_timeout (p : ProcSpec) (timeout : Nat)
    (hne : noExitWithin p timeout) :
    run_fetch_streaming p timeout =
      ⟨124, concatUpTo p.outText timeout, concatUpTo p.errText timeout, true⟩ := by
  have h := streamGo_timeout_aux p timeout hne timeout 0 (by omega)
  simpa [run_fetch_streaming, concatUpTo] using h

theorem streamGo_exit_aux (p : ProcSpec) (timeout : Nat) (te : Nat) (code : Int)
    (hexit : p.exitAt = some (te, code)) (hte : te ≤ timeout) :
    ∀ fuel t accO accE, fuel + t = timeout → t < te →
      streamGo p timeout fuel t accO accE =
        ⟨code, concatUpTo p.outText te, concatUpTo p.errText te, false⟩ := by
  intro fuel
  induction fuel with
  | zero =>
    intro t accO accE ht hlt
    omega
  | succ fuel ih =>
    intro t accO accE ht hlt
    rw [streamGo]
    split
    · rename_i te2 code2 heq
      rw [hexit] at heq
      injection heq with heq2
      injection heq2 with h1 h2
      subst h1
      subst h2
      by_cases hle : te ≤ t + 1
      · rw [if_pos hle]
      · rw [if_neg hle]
        rw [if_neg (by omega)]
        exact ih (t + 1) _ _ (by omega) (by omega)
    · rename_i heq
      rw [hexit] at heq
      cases heq

/-- A process that exits within the timeout yields its own exit code
with `timed_out := false`. -/
theorem run_fetch_streaming_exit (p : ProcSpec) (timeout te : Nat) (code : Int)
    (htepos : 0 < te) (hexit : p.exitAt = some (te, code)) (hte : te ≤ timeout) :
    run_fetch_streaming p timeout =
      ⟨code, concatUpTo p.outText te, concatUpTo p.errText te, false⟩ :=
  streamGo_exit_aux p timeout te code hexit hte timeout 0 "" "" (by omega) htepos

/-- C4: a fetch invocation that outlives the timeout is killed; the
returned result has `timed_out = true` and the sentinel status 124 with
the partial captured output preserved, while every run that exits on
its own returns with `timed_out = false` and the tool's own exit code
(so a timeout result is always distinguishable); the resulting fetch
outcome message contains "timed out", and the item's persisted status
becomes `failed_permanent`, not `failed`. -/
theorem c4_timeout_fidelity (p : ProcSpec) (timeout : Nat) (opfE : Bool) (opfL : Nat)
    (calls : ExtCalls) (state : StateFile) (book : Json) (book_id : Int)
    (reprocess : Bool) (scoring : ScoringConfig) (now : String)
    (hne : noExitWithin p timeout)
    (hid : (jsonGet book "id").bind jsonAsI64 = some book_id)
    (hskip : restingSkip (get_book_state state book_id) reprocess
      (snapshot_hash (metadata_snapshot book)) = false)
    (hgood : goodEnough (metadata_snapshot book) scoring = false)
    (hcalls : calls.fetch =
      fetch_metadata_to_opf_and_cover (run_fetch_streaming p timeout) timeout opfE opfL) :
    (run_fetch_streaming p timeout).timed_out = true ∧
    (run_fetch_streaming p timeout).status_code = 124 ∧
    (run_fetch_streaming p timeout).stdout = concatUpTo p.outText timeout ∧
    (run_fetch_streaming p timeout).stderr = concatUpTo p.errText timeout ∧
    (∀ (p2 : ProcSpec) (t2 te : Nat) (code : Int), 0 < te →
      p2.exitAt = some (te, code) → te ≤ t2 →
      (run_fetch_streaming p2 t2).timed_out = false ∧
      (run_fetch_streaming p2 t2).status_code = code) ∧
    calls.fetch.1 = false ∧
    containsSub "timed out" calls.fetch.2 = true ∧
    ∃ o, process_one_book calls state book reprocess scoring false now = .ok o ∧
      o.action = "failed" ∧
      (get_book_state o.state book_id).map (·.status) = some "failed_permanent" := by
  have hrun := run_fetch_streaming_timeout p timeout hne
  have hf1 : calls.fetch.1 = false := by
    rw [hcalls, hrun]
    rfl
  have hmsg : calls.fetch.2 =
      "fetch-ebook-metadata timed out after " ++ natToString timeout ++ "s" := by
    rw [hcalls, hrun]
    rfl
  have hsub : containsSub "timed out" calls.fetch.2 = true := by
    rw [hmsg]
    exact containsSub_append_left "s"
      (containsSub_append_left (natToString timeout) (by decide))
  refine ⟨by rw [hrun], by rw [hrun], by rw [hrun], by rw [hrun], ?_, hf1, hsub, ?_⟩
  · intro p2 t2 te code htepos hexit hte
    rw [run_fetch_streaming_exit p2 t2 te code htepos hexit hte]
    exact ⟨rfl, rfl⟩
  · have hrun2 : process_one_book calls state book reprocess scoring false now =
        .ok ⟨"failed",
          put_book_state
            (put_book_state state book_id
              ⟨"started", snapshot_hash (metadata_snapshot book), now,
                (get_book_state state book_id).bind (·.last_ok_utc), some "started",
                (((get_book_state state book_id).map (·.fail_count)).getD 0)⟩)
            book_id
            ⟨"failed_permanent", snapshot_hash (metadata_snapshot book), now,
              (get_book_state state book_id).bind (·.last_ok_utc), some calls.fetch.2,
              (((get_book_state state book_id).map (·.fail_count + 1)).getD 1)⟩,
          [.save (put_book_state state book_id
              ⟨"started", snapshot_hash (metadata_snapshot book), now,
                (get_book_state state book_id).bind (·.last_ok_utc), some "started",
                (((get_book_state state book_id).map (·.fail_count)).getD 0)⟩).books,
            .fetchCall,
            .save (put_book_state
              (put_book_state state book_id
                ⟨"started", snapshot_hash (metadata_snapshot book), now,
                  (get_book_state state book_id).bind (·.last_ok_utc), some "started",
                  (((get_book_state state book_id).map (·.fail_count)).getD 0)⟩)
              book_id
              ⟨"failed_permanent", snapshot_hash (metadata_snapshot book), now,
                (get_book_state state book_id).bind (·.last_ok_utc), some calls.fetch.2,
                (((get_book_state state book_id).map (·.fail_count + 1)).getD 1)⟩).books],
          [⟨"started", snapshot_hash (metadata_snapshot book), now,
              (get_book_state state book_id).bind (·.last_ok_utc), some "started",
              (((get_book_state state book_id).map (·.fail_count)).getD 0)⟩,
            ⟨"failed_permanent", snapshot_hash (metadata_snapshot book), now,
              (get_book_state state book_id).bind (·.last_ok_utc), some calls.fetch.2,
              (((get_book_state state book_id).map (·.fail_count + 1)).getD 1)⟩]⟩ := by
      simp [process_one_book, hid, hskip, hgood, hf1, hsub]
    refine ⟨_, hrun2, rfl, ?_⟩
    show ((get_book_state (put_book_state _ book_id _) book_id).map (·.status)) = _
    unfold get_book_state put_book_state
    rw [lookup_upsertBook_self]
    rfl

/-- The fetch process model used by the C4 witness: never exits, no
output. -/
def c4Proc : ProcSpec := ⟨none, fun _ => "", fun _ => ""⟩

/-- A candidate book below the score threshold (only an id). -/
def c4Book : Json := .obj [("id", .num 3)]

/-- External calls whose fetch outcome is the interpreted result of the
timed-out streaming run. -/
def c4Calls : ExtCalls :=
  ⟨fetch_metadata_to_opf_and_cover (run_fetch_streaming c4Proc 1) 1 false 0,
    (true, ""), (true, ""), (true, ""), none⟩

/-- Witness for C4: with a one-second timeout and a process that never
exits, the item is persisted as `failed_permanent`. -/
theorem c4_timeout_fidelity_witness :
    ∃ o, process_one_book c4Calls emptyStateFile c4Book false defaultScoring false "NOW" =
        .ok o ∧
      o.action = "failed" ∧
      (get_book_state o.state 3).map (·.status) = some "failed_permanent" :=
  (c4_timeout_fidelity c4Proc 1 false 0 c4Calls emptyStateFile c4Book 3 false
    defaultScoring "NOW"
    (by intro te code h; simp [c4Proc] at h)
    (by decide) (by decide) (by decide) rfl).2.2.2.2.2.2.2

end CalibreUpdatr
